import Mathlib

/-!
Verification development for the quota-tracking spreadsheet bot.

The repository holds two near-identical program files:
* `src/index.js` — embedded below in namespace `Main`;
* `src/unnamed/part_000` — embedded below in namespace `Alt`.

Cells read from the tabular range store are strings, booleans, or empty
(absent) values; all numeric interpretation happens through models of the
JavaScript builtins. The `parseInt` model covers leading whitespace, an
optional sign, decimal digit prefixes and the `0x` hexadecimal form, and
the `String(n)` model switches to exponential notation at 10²¹ as JS
does; the `Number(s)` model covers decimal integer and decimal fraction
literals, with exponent, hexadecimal and Infinity forms outside the model
and treated as non-numeric.
-/

/-- A cell value as returned by the tabular range store: absent/empty,
a string, or a boolean. -/
inductive Cell
  | empty
  | str (s : String)
  | boolean (b : Bool)
deriving DecidableEq, Repr

/-- A JavaScript number that can be staged into a write: an integer, a
non-integer exact rational in lowest terms (from a decimal fraction
literal), or NaN. -/
inductive JsNum
  | int (n : Int)
  | frac (num : Int) (den : Nat)
  | nan
deriving DecidableEq, Repr

/-- Normalised rational `num / den` (`den > 0`): an integer when the
denominator divides out, a lowest-terms fraction otherwise. -/
def mkJsNum (num : Int) (den : Nat) : JsNum :=
  let g := Nat.gcd num.natAbs den
  let d := den / g
  if d = 1 then .int (num / (g : Int)) else .frac (num / (g : Int)) d

/-- JavaScript addition of 1 to a number: NaN is absorbing; adding 1 to a
lowest-terms fraction keeps its denominator. -/
def JsNum.addOne : JsNum → JsNum
  | .int n => .int (n + 1)
  | .frac n d => .frac (n + d) d
  | .nan => .nan

/-- Numeric value of a decimal digit character. -/
def digitVal (c : Char) : Nat := c.toNat - 48

/-- Decimal value of a digit-character list, most significant first. -/
def natOfDigits (l : List Char) : Nat :=
  l.foldl (fun a c => 10 * a + digitVal c) 0

/-- Power of ten. -/
def tenPow (k : Nat) : Nat := 10 ^ k

/-- Leading and trailing whitespace removal on a character list. -/
def trimChars (l : List Char) : List Char :=
  ((l.dropWhile Char.isWhitespace).reverse.dropWhile Char.isWhitespace).reverse

/-- Model of JavaScript `s.trim()`. -/
def jsTrim (s : String) : String := ⟨trimChars s.toList⟩

/-- ASCII uppercase of one character, as `toUpperCase` acts on the
letters that can occur here. -/
def upperChar (c : Char) : Char :=
  if 'a' ≤ c ∧ c ≤ 'z' then Char.ofNat (c.toNat - 32) else c

/-- Model of JavaScript `s.toUpperCase()`. -/
def jsToUpper (s : String) : String := ⟨s.toList.map upperChar⟩

/-- Model of JavaScript `s.split(',')` on a character list: splitting the
empty string yields one empty part. -/
def splitComma : List Char → List (List Char)
  | [] => [[]]
  | c :: rest =>
      let r := splitComma rest
      if c = ',' then [] :: r
      else
        match r with
        | [] => [[c]]
        | h :: t => (c :: h) :: t

/-- Optional leading sign, as consumed by `parseInt` and `Number`. -/
def parseSign (l : List Char) : Int × List Char :=
  match l with
  | c :: rest =>
      if c = '-' then (-1, rest)
      else if c = '+' then (1, rest)
      else (1, c :: rest)
  | [] => (1, [])

/-- Hexadecimal digit predicate, as `parseInt` accepts after a `0x`
prefix. -/
def hexDigit (c : Char) : Bool :=
  c.isDigit || ('a' ≤ c && c ≤ 'f') || ('A' ≤ c && c ≤ 'F')

/-- Numeric value of a hexadecimal digit character. -/
def hexVal (c : Char) : Nat :=
  if c.isDigit then c.toNat - 48
  else if 'a' ≤ c ∧ c ≤ 'f' then c.toNat - 87
  else c.toNat - 55

/-- Hexadecimal value of a hex-digit-character list, most significant
first. -/
def natOfHexDigits (l : List Char) : Nat :=
  l.foldl (fun a c => 16 * a + hexVal c) 0

/-- Radix auto-detection of `parseInt`: after whitespace and sign, a
`0x` / `0X` prefix switches to base 16. -/
def isHexPrefix : List Char → Bool
  | a :: b :: _ => a == '0' && (b == 'x' || b == 'X')
  | _ => false

/-- Model of JavaScript `parseInt` on a character list: skip leading
whitespace, read an optional sign; a `0x`/`0X` prefix then reads the
longest prefix of hexadecimal digits, otherwise the longest prefix of
decimal digits; no digits means NaN (`none`). -/
def parseIntChars (l : List Char) : Option Int :=
  let l1 := l.dropWhile Char.isWhitespace
  let s := parseSign l1
  if isHexPrefix s.2 then
    let ds := (s.2.drop 2).takeWhile hexDigit
    if ds.isEmpty then none else some (s.1 * (natOfHexDigits ds : Int))
  else
    let ds := s.2.takeWhile Char.isDigit
    if ds.isEmpty then none else some (s.1 * (natOfDigits ds : Int))

/-- Model of JavaScript `parseInt` on a string. -/
def parseIntJs (s : String) : Option Int := parseIntChars s.toList

/-- Model of JavaScript `Number(s)` for a string `s`: trim whitespace,
empty means 0, otherwise the whole remainder must be an optionally signed
decimal integer or decimal fraction literal; anything else is NaN. -/
def jsNumberOfString (s : String) : JsNum :=
  let l := trimChars s.toList
  if l.isEmpty then .int 0
  else
    let sg := parseSign l
    let intPart := sg.2.takeWhile Char.isDigit
    let rest := sg.2.dropWhile Char.isDigit
    match rest with
    | [] =>
        if intPart.isEmpty then .nan
        else .int (sg.1 * (natOfDigits intPart : Int))
    | '.' :: fr =>
        if fr.all Char.isDigit ∧ ¬(intPart.isEmpty ∧ fr.isEmpty) then
          mkJsNum (sg.1 * ((natOfDigits intPart * tenPow fr.length
            + natOfDigits fr : Nat) : Int)) (tenPow fr.length)
        else .nan
    | _ => .nan

/-- The expression `Number(cell || 0)` from `src/unnamed/part_000`:
empty, `false` and `''` short-circuit to `Number(0) = 0`; `true` gives
`Number(true) = 1`; other strings go through string-to-number coercion. -/
def jsNumber : Cell → JsNum
  | .empty => .int 0
  | .boolean true => .int 1
  | .boolean false => .int 0
  | .str s => if s = "" then .int 0 else jsNumberOfString s

/-- The expression `parseInt(cell || 0) || 0` from `src/index.js`
(`handleAdd`, `handleQuotaCheck` and friends): empty, `false` and `''`
short-circuit to `parseInt(0) = 0`; `true` gives `parseInt('true') = NaN`
which `|| 0` turns into 0; a string parses through `parseInt` with NaN
collapsed to 0. -/
def coerceInt : Cell → Int
  | .empty => 0
  | .boolean _ => 0
  | .str s => if s = "" then 0 else (parseIntJs s).getD 0

/-- Decimal digit characters of `m`, most significant first, by fuelled
division (`m` itself bounds the digit count). -/
def natCharsAux : Nat → Nat → List Char
  | 0, _ => []
  | fuel + 1, m =>
      if m = 0 then []
      else natCharsAux fuel (m / 10) ++ [Nat.digitChar (m % 10)]

/-- Decimal digit characters of a positive natural number, most
significant first. -/
def natChars (m : Nat) : List Char := natCharsAux m m

/-- Exponential rendering `d.ddd…e+EXP` that JavaScript `String(n)` uses
for numbers of magnitude at least 10²¹, written from the number's exact
decimal digits (faithful for values the float64 holds exactly, such as
the powers of ten used below): one leading digit, the remaining
significant digits after a dot when non-zero, then the exponent. -/
def expChars (m : Nat) : List Char :=
  match natChars m with
  | [] => []
  | d :: rest =>
      (if ((rest.reverse.dropWhile (fun c => c == '0')).reverse).isEmpty then [d]
       else d :: '.' :: (rest.reverse.dropWhile (fun c => c == '0')).reverse) ++
        'e' :: '+' :: natChars rest.length

/-- Model of JavaScript `String(n)` for a natural number: plain decimal
digits below 10²¹, exponential notation from 10²¹ on (JS renders
`String(1e22)` as `"1e+22"`, not as 23 digits). The digits are the exact
ones of `m`; float64 rounding above 2⁵³ is not modelled, so `m` stands
for the value the engine's number actually holds — every integral float
below 10²¹ prints its exact decimal digits, and the ones from 10²¹ on
print exponentially. -/
def jsStringOfNat (m : Nat) : String :=
  if m = 0 then "0"
  else if m < tenPow 21 then ⟨natChars m⟩
  else ⟨expChars m⟩

/-- Model of JavaScript `String(n)` for an integer-valued number. -/
def jsStringOfInt (n : Int) : String :=
  if n < 0 then "-" ++ jsStringOfNat n.natAbs else jsStringOfNat n.toNat

/-- The expression `parseInt(v || 0) || 0` applied to a number `v` that
is already an integer: `0` short-circuits to `parseInt(0) = 0`, any other
integer is stringified (decimal below 10²¹, exponential from 10²¹ on)
and parsed back by `parseInt`, which stops at the first non-digit — so
an exponentially rendered value collapses to its leading digit. -/
def coerceIntNum (n : Int) : Int :=
  if n = 0 then 0 else (parseIntJs (jsStringOfInt n)).getD 0

/-- The parse through which `coerceInt` reads a cell: `none` exactly when
the cell is empty (or boolean) or its string does not parse as an integer. -/
def parseCell : Cell → Option Int
  | .str s => if s = "" then none else parseIntJs s
  | _ => none

/-- The checked-predicate `isChecked` shared by both files:
`cell === true || String(cell).toUpperCase() === 'TRUE'`. -/
def isChecked : Cell → Bool
  | .boolean b => b
  | .empty => false
  | .str s => jsToUpper s = "TRUE"

/-- Indexing `row[i]` into a row array: absent entries read as empty. -/
def getCell (row : List Cell) (i : Nat) : Cell := row.getD i .empty

/-- The identifier read `(row[COL.B] || '').toString().trim()` of
`src/index.js`: empty and `false` short-circuit to `''`; `true`
stringifies to `"true"`. -/
def bIdent (row : List Cell) : String :=
  match getCell row 1 with
  | .empty => ""
  | .boolean false => ""
  | .boolean true => "true"
  | .str s => if s = "" then "" else jsTrim s

/-- The identifier read `(row[COL.B] || '').trim()` of
`src/unnamed/part_000`: a boolean `true` cell reaches `.trim()` on a
non-string and raises a TypeError, modelled as `none`. -/
def bIdentP (row : List Cell) : Option String :=
  match getCell row 1 with
  | .empty => some ""
  | .boolean false => some ""
  | .boolean true => none
  | .str s => some (if s = "" then "" else jsTrim s)

/-- A staged single-cell write `{range: sheet!colrow, values: [[value]]}`. -/
structure Update where
  sheet : String
  col : Char
  row : Nat
  value : JsNum
deriving DecidableEq, Repr

/-- A summary entry `{sheet, row, name, F=newF}` recorded for a quota
increment. -/
structure Inc where
  sheet : String
  row : Nat
  name : String
  newF : JsNum
deriving DecidableEq, Repr

/-- The configured sheet list `SHEETS`. -/
def SHEETS : List String :=
  ["TROOPER_COMPANY", "TITAN_COMPANY", "META_SQUAD", "VANGUARD_COMPANY"]

/-- A store state: each sheet name yields its full grid, row 1 first.
Reading a rectangular range returns the corresponding sub-grid; trailing
absent rows/columns read as empty cells through `getCell`. -/
abbrev Store := String → List (List Cell)

/-- The read `getValues(sheet!A{a}:…{b})`: rows `a` through `b` of the
grid (the store may return fewer rows; extra columns are never read). -/
def readRange (rows : List (List Cell)) (a b : Nat) : List (List Cell) :=
  (rows.drop (a - 1)).take (b - a + 1)

/-- Per-sheet output of one quota-check sheet iteration. -/
structure SheetOut where
  updates : List Update
  topIncs : List Inc
  botIncs : List Inc
deriving DecidableEq, Repr

/-- Outcome of a whole quota-check invocation: all staged writes, the
batch calls issued (one per sheet with staged writes), the two summary
lists and the updated-sheet list. -/
structure QCResult where
  updates : List Update
  calls : List (String × List Update)
  topIncrements : List Inc
  bottomIncrements : List Inc
  sheetsUpdated : List String
deriving DecidableEq, Repr

namespace Main

/-- One iteration of the top-block loop of `handleQuotaCheck` in
`src/index.js` (rows 7–13, `actualRow = 7 + i`): skip when the trimmed
column-B cell is empty; for rows 8–13 with both the column-J and column-H
flags unchecked, stage `F := parseInt(F||0)||0 + 1` and record a
top-increment entry; then stage the D and E resets. -/
def processTopRow (sheetName : String) (i : Nat) (row : List Cell) :
    List Update × List Inc :=
  let actualRow := 7 + i
  let nameCell := bIdent row
  if nameCell = "" then ([], [])
  else
    let incPart : List Update × List Inc :=
      if 8 ≤ actualRow ∧ actualRow ≤ 13 then
        if isChecked (getCell row 9) = false ∧ isChecked (getCell row 7) = false then
          let fNew := coerceInt (getCell row 5) + 1
          ([⟨sheetName, 'F', actualRow, .int fNew⟩],
           [⟨sheetName, actualRow, nameCell, .int fNew⟩])
        else ([], [])
      else ([], [])
    (incPart.1 ++ [⟨sheetName, 'D', actualRow, .int 0⟩, ⟨sheetName, 'E', actualRow, .int 0⟩],
     incPart.2)

/-- The top-block `for` loop of `src/index.js`, iterating the grid rows
in order with running index `i`. -/
def topPass (sheetName : String) : Nat → List (List Cell) → List Update × List Inc
  | _, [] => ([], [])
  | i, row :: rest =>
      let p := processTopRow sheetName i row
      let q := topPass sheetName (i + 1) rest
      (p.1 ++ q.1, p.2 ++ q.2)

/-- One iteration of the rows 7–10 reset loop of `src/index.js`: when the
trimmed column-B cell of `topValues[r-7]` is non-empty, stage a write of 0
to column B of row `r` (this file targets B, the identifier column). -/
def tryReset (sheetName : String) (top : List (List Cell)) (r : Nat) : List Update :=
  if bIdent (top.getD (r - 7) []) = "" then []
  else [⟨sheetName, 'B', r, .int 0⟩]

/-- The `for (let r = 7; r <= 10; r++)` reset loop of `src/index.js`. -/
def resetLoop (sheetName : String) (top : List (List Cell)) : List Update :=
  tryReset sheetName top 7 ++ tryReset sheetName top 8 ++
    tryReset sheetName top 9 ++ tryReset sheetName top 10

/-- One iteration of the bottom-block loop of `src/index.js` (rows 19–40,
`actualRow = 19 + i`): skip when the trimmed column-B cell is empty; with
both the column-I and column-G flags unchecked, stage
`F := parseInt(F||0)||0 + 1` and record a bottom-increment entry; then
stage the D reset. -/
def processBottomRow (sheetName : String) (i : Nat) (row : List Cell) :
    List Update × List Inc :=
  let actualRow := 19 + i
  let nameCell := bIdent row
  if nameCell = "" then ([], [])
  else
    let incPart : List Update × List Inc :=
      if isChecked (getCell row 8) = false ∧ isChecked (getCell row 6) = false then
        let fNew := coerceInt (getCell row 5) + 1
        ([⟨sheetName, 'F', actualRow, .int fNew⟩],
         [⟨sheetName, actualRow, nameCell, .int fNew⟩])
      else ([], [])
    (incPart.1 ++ [⟨sheetName, 'D', actualRow, .int 0⟩], incPart.2)

/-- The bottom-block `for` loop of `src/index.js`. -/
def bottomPass (sheetName : String) : Nat → List (List Cell) → List Update × List Inc
  | _, [] => ([], [])
  | i, row :: rest =>
      let p := processBottomRow sheetName i row
      let q := bottomPass sheetName (i + 1) rest
      (p.1 ++ q.1, p.2 ++ q.2)

/-- One sheet iteration of `handleQuotaCheck` in `src/index.js`: read
`A7:J13`, run the top loop and the rows 7–10 reset loop over it, read
`A19:I40`, run the bottom loop, and collect the staged writes in order. -/
def sheetRun (store : Store) (n : String) : SheetOut :=
  let top := readRange (store n) 7 13
  let t := topPass n 0 top
  let r := resetLoop n top
  let b := bottomPass n 0 (readRange (store n) 19 40)
  ⟨t.1 ++ r ++ b.1, t.2, b.2⟩

/-- The whole `handleQuotaCheck` of `src/index.js` over the configured
sheets: per sheet, one batch call is issued exactly when that sheet staged
at least one write, and that sheet is then recorded as updated. -/
def quotaCheck (store : Store) : QCResult :=
  ⟨(SHEETS.map fun n => (sheetRun store n).updates).flatten,
   (SHEETS.map fun n => (n, (sheetRun store n).updates)).filterMap
     (fun p => if p.2.isEmpty then none else some p),
   (SHEETS.map fun n => (sheetRun store n).topIncs).flatten,
   (SHEETS.map fun n => (sheetRun store n).botIncs).flatten,
   (SHEETS.map fun n => (n, (sheetRun store n).updates)).filterMap
     (fun p => if p.2.isEmpty then none else some p.1)⟩

end Main

namespace Alt

/-- One iteration of the top-block loop of `handleQuotaCheck` in
`src/unnamed/part_000`: as in `src/index.js`, except the identifier read
`(row[COL.B] || '').trim()` raises on boolean `true` (`none`) and the
increment value is `Number(row[COL.F] || 0) + 1`. -/
def processTopRow (sheetName : String) (i : Nat) (row : List Cell) :
    Option (List Update × List Inc) :=
  match bIdentP row with
  | none => none
  | some nameCell =>
      if nameCell = "" then some ([], [])
      else
        let actualRow := 7 + i
        let incPart : List Update × List Inc :=
          if 8 ≤ actualRow ∧ actualRow ≤ 13 then
            if isChecked (getCell row 9) = false ∧ isChecked (getCell row 7) = false then
              let fNew := (jsNumber (getCell row 5)).addOne
              ([⟨sheetName, 'F', actualRow, fNew⟩],
               [⟨sheetName, actualRow, nameCell, fNew⟩])
            else ([], [])
          else ([], [])
        some (incPart.1 ++
                [⟨sheetName, 'D', actualRow, .int 0⟩, ⟨sheetName, 'E', actualRow, .int 0⟩],
              incPart.2)

/-- The top-block `for` loop of `src/unnamed/part_000`. -/
def topPass (sheetName : String) : Nat → List (List Cell) → Option (List Update × List Inc)
  | _, [] => some ([], [])
  | i, row :: rest =>
      match processTopRow sheetName i row with
      | none => none
      | some p =>
          match topPass sheetName (i + 1) rest with
          | none => none
          | some q => some (p.1 ++ q.1, p.2 ++ q.2)

/-- One iteration of the rows 7–10 reset loop of `src/unnamed/part_000`:
this file targets column G (the tryout counter). -/
def tryReset (sheetName : String) (top : List (List Cell)) (r : Nat) :
    Option (List Update) :=
  match bIdentP (top.getD (r - 7) []) with
  | none => none
  | some u => if u = "" then some [] else some [⟨sheetName, 'G', r, .int 0⟩]

/-- The `for (let r = 7; r <= 10; r++)` reset loop of `src/unnamed/part_000`. -/
def resetLoop (sheetName : String) (top : List (List Cell)) : Option (List Update) :=
  match tryReset sheetName top 7 with
  | none => none
  | some a =>
      match tryReset sheetName top 8 with
      | none => none
      | some b =>
          match tryReset sheetName top 9 with
          | none => none
          | some c =>
              match tryReset sheetName top 10 with
              | none => none
              | some d => some (a ++ b ++ c ++ d)

/-- One iteration of the bottom-block loop of `src/unnamed/part_000`. -/
def processBottomRow (sheetName : String) (i : Nat) (row : List Cell) :
    Option (List Update × List Inc) :=
  match bIdentP row with
  | none => none
  | some nameCell =>
      if nameCell = "" then some ([], [])
      else
        let actualRow := 19 + i
        let incPart : List Update × List Inc :=
          if isChecked (getCell row 8) = false ∧ isChecked (getCell row 6) = false then
            let fNew := (jsNumber (getCell row 5)).addOne
            ([⟨sheetName, 'F', actualRow, fNew⟩],
             [⟨sheetName, actualRow, nameCell, fNew⟩])
          else ([], [])
        some (incPart.1 ++ [⟨sheetName, 'D', actualRow, .int 0⟩], incPart.2)

/-- The bottom-block `for` loop of `src/unnamed/part_000`. -/
def bottomPass (sheetName : String) : Nat → List (List Cell) → Option (List Update × List Inc)
  | _, [] => some ([], [])
  | i, row :: rest =>
      match processBottomRow sheetName i row with
      | none => none
      | some p =>
          match bottomPass sheetName (i + 1) rest with
          | none => none
          | some q => some (p.1 ++ q.1, p.2 ++ q.2)

/-- One sheet iteration of `handleQuotaCheck` in `src/unnamed/part_000`;
a TypeError anywhere aborts the invocation (`none`), matching the
dispatcher's catch-all which turns any raised error into a single
internal-error reply with no summary. -/
def sheetRun (store : Store) (n : String) : Option SheetOut :=
  let top := readRange (store n) 7 13
  match topPass n 0 top with
  | none => none
  | some t =>
      match resetLoop n top with
      | none => none
      | some r =>
          match bottomPass n 0 (readRange (store n) 19 40) with
          | none => none
          | some b => some ⟨t.1 ++ r ++ b.1, t.2, b.2⟩

/-- The sheet loop of `handleQuotaCheck` in `src/unnamed/part_000`. -/
def sheetsRun (store : Store) : List String → Option (List (String × SheetOut))
  | [] => some []
  | n :: rest =>
      match sheetRun store n with
      | none => none
      | some o =>
          match sheetsRun store rest with
          | none => none
          | some outs => some ((n, o) :: outs)

/-- The whole `handleQuotaCheck` of `src/unnamed/part_000`. -/
def quotaCheck (store : Store) : Option QCResult :=
  match sheetsRun store SHEETS with
  | none => none
  | some outs =>
      some ⟨(outs.map fun p => p.2.updates).flatten,
            outs.filterMap (fun p =>
              if p.2.updates.isEmpty then none else some (p.1, p.2.updates)),
            (outs.map fun p => p.2.topIncs).flatten,
            (outs.map fun p => p.2.botIncs).flatten,
            outs.filterMap (fun p =>
              if p.2.updates.isEmpty then none else some p.1)⟩

end Alt

/-- Normalisation `parseWords` of a comma-separated target list, shared by
both files: split on commas, trim each part, drop empties. -/
def parseWords (input : String) : List String :=
  ((splitComma input.toList).map (fun l => (⟨trimChars l⟩ : String))).filter
    (fun s => s ≠ "")

/-- Strict equality `row[COL.B] === word` used by the row matcher: true
only when the cell holds exactly that string. -/
def cellEqStr (c : Cell) (w : String) : Bool :=
  match c with
  | .str s => s = w
  | _ => false

/-- A summary entry of `handleAdd` / `handleOfficerAdd`: two updated
column values per matched row. -/
structure AddEntry where
  sheet : String
  row : Nat
  name : String
  v1 : Int
  v2 : Int
deriving DecidableEq, Repr

/-- A summary entry of `handleTryoutAdd`: one updated column value. -/
structure TryEntry where
  sheet : String
  row : Nat
  name : String
  g : Int
deriving DecidableEq, Repr

/-- Result of one of the three add-style handlers. -/
structure AddResult where
  updates : List Update
  calls : List (String × List Update)
  entries : List AddEntry
deriving DecidableEq, Repr

/-- Result of `handleTryoutAdd`. -/
structure TryResult where
  updates : List Update
  calls : List (String × List Update)
  entries : List TryEntry
deriving DecidableEq, Repr

/-- The word loop of `handleAdd` over one sheet's `A1:D100` grid: find the
first row whose column B strictly equals the word, then stage
`C := parseInt(C||0)||0 + events` and `D := parseInt(D||0)||0 + events`
at row `rowIndex + 1`; a word with no match contributes nothing. -/
def addWords (sheetName : String) (grid : List (List Cell)) (amount : Int) :
    List String → List Update × List AddEntry
  | [] => ([], [])
  | word :: rest =>
      let p : List Update × List AddEntry :=
        match grid.findIdx? (fun row => cellEqStr (getCell row 1) word) with
        | none => ([], [])
        | some rowIndex =>
            let row := grid.getD rowIndex []
            let totalNew := coerceInt (getCell row 2) + amount
            let weeklyNew := coerceInt (getCell row 3) + amount
            let rowNumber := rowIndex + 1
            ([⟨sheetName, 'C', rowNumber, .int totalNew⟩,
              ⟨sheetName, 'D', rowNumber, .int weeklyNew⟩],
             [⟨sheetName, rowNumber, word, totalNew, weeklyNew⟩])
      let q := addWords sheetName grid amount rest
      (p.1 ++ q.1, p.2 ++ q.2)

/-- Per-sheet stage of `handleAdd`: the grid is read once (`A1:D100`)
before any write for that sheet. -/
def addPerSheet (store : Store) (input : String) (amount : Int) (n : String) :
    List Update × List AddEntry :=
  addWords n (readRange (store n) 1 100) amount (parseWords input)

/-- The whole `handleAdd` of `src/index.js` (identical in
`src/unnamed/part_000`): per sheet one batch call exactly when at least
one write was staged for it. -/
def handleAdd (store : Store) (input : String) (amount : Int) : AddResult :=
  ⟨(SHEETS.map fun n => (addPerSheet store input amount n).1).flatten,
   (SHEETS.map fun n => (n, (addPerSheet store input amount n).1)).filterMap
     (fun p => if p.2.isEmpty then none else some p),
   (SHEETS.map fun n => (addPerSheet store input amount n).2).flatten⟩

/-- The word loop of `handleOfficerAdd` over one sheet's `A7:E13` grid:
updates columns D and E at row `rowIndex + 7`. -/
def officerWords (sheetName : String) (grid : List (List Cell)) (amount : Int) :
    List String → List Update × List AddEntry
  | [] => ([], [])
  | word :: rest =>
      let p : List Update × List AddEntry :=
        match grid.findIdx? (fun row => cellEqStr (getCell row 1) word) with
        | none => ([], [])
        | some rowIndex =>
            let row := grid.getD rowIndex []
            let rowNumber := rowIndex + 7
            let dNew := coerceInt (getCell row 3) + amount
            let eNew := coerceInt (getCell row 4) + amount
            ([⟨sheetName, 'D', rowNumber, .int dNew⟩,
              ⟨sheetName, 'E', rowNumber, .int eNew⟩],
             [⟨sheetName, rowNumber, word, dNew, eNew⟩])
      let q := officerWords sheetName grid amount rest
      (p.1 ++ q.1, p.2 ++ q.2)

/-- Per-sheet stage of `handleOfficerAdd` (`A7:E13` read). -/
def officerPerSheet (store : Store) (input : String) (amount : Int) (n : String) :
    List Update × List AddEntry :=
  officerWords n (readRange (store n) 7 13) amount (parseWords input)

/-- The whole `handleOfficerAdd` (identical in both files). -/
def handleOfficerAdd (store : Store) (input : String) (amount : Int) : AddResult :=
  ⟨(SHEETS.map fun n => (officerPerSheet store input amount n).1).flatten,
   (SHEETS.map fun n => (n, (officerPerSheet store input amount n).1)).filterMap
     (fun p => if p.2.isEmpty then none else some p),
   (SHEETS.map fun n => (officerPerSheet store input amount n).2).flatten⟩

/-- The word loop of `handleTryoutAdd` over one sheet's `A7:G10` grid:
updates column G at row `rowIndex + 7`. -/
def tryoutWords (sheetName : String) (grid : List (List Cell)) (amount : Int) :
    List String → List Update × List TryEntry
  | [] => ([], [])
  | word :: rest =>
      let p : List Update × List TryEntry :=
        match grid.findIdx? (fun row => cellEqStr (getCell row 1) word) with
        | none => ([], [])
        | some rowIndex =>
            let row := grid.getD rowIndex []
            let rowNumber := rowIndex + 7
            let gNew := coerceInt (getCell row 6) + amount
            ([⟨sheetName, 'G', rowNumber, .int gNew⟩],
             [⟨sheetName, rowNumber, word, gNew⟩])
      let q := tryoutWords sheetName grid amount rest
      (p.1 ++ q.1, p.2 ++ q.2)

/-- Per-sheet stage of `handleTryoutAdd` (`A7:G10` read). -/
def tryoutPerSheet (store : Store) (input : String) (amount : Int) (n : String) :
    List Update × List TryEntry :=
  tryoutWords n (readRange (store n) 7 10) amount (parseWords input)

/-- The whole `handleTryoutAdd` (identical in both files). -/
def handleTryoutAdd (store : Store) (input : String) (amount : Int) : TryResult :=
  ⟨(SHEETS.map fun n => (tryoutPerSheet store input amount n).1).flatten,
   (SHEETS.map fun n => (n, (tryoutPerSheet store input amount n).1)).filterMap
     (fun p => if p.2.isEmpty then none else some p),
   (SHEETS.map fun n => (tryoutPerSheet store input amount n).2).flatten⟩

/-- The value the store holds at a cell after a staged batch is applied:
the last staged write to that cell wins. -/
def lastWrite (updates : List Update) (n : String) (c : Char) (r : Nat) :
    Option JsNum :=
  ((updates.filter (fun u => u.sheet == n && u.col == c && u.row == r)).getLast?).map
    Update.value

/-- Retargeting of the single reset-column difference between the two
files: `src/index.js` writes its rows 7–10 resets to column B, while
`src/unnamed/part_000` writes them to column G; no other write of either
engine targets column B. -/
def retargetU (u : Update) : Update :=
  if u.col = 'B' then ⟨u.sheet, 'G', u.row, u.value⟩ else u

/-- Retargeting applied to a whole quota-check result. -/
def retargetResult (res : QCResult) : QCResult :=
  ⟨res.updates.map retargetU,
   res.calls.map (fun c => (c.1, c.2.map retargetU)),
   res.topIncrements, res.bottomIncrements, res.sheetsUpdated⟩

/-- A row on which the two files' per-row readings agree: its identifier
cell is not boolean `true` (so `part_000`'s `.trim()` does not raise) and
its F counter cell coerces to the same number under `parseInt`-based and
`Number`-based coercion. -/
def RowOk (row : List Cell) : Prop :=
  getCell row 1 ≠ Cell.boolean true ∧
    jsNumber (getCell row 5) = JsNum.int (coerceInt (getCell row 5))

instance (row : List Cell) : Decidable (RowOk row) := by
  unfold RowOk; infer_instance

/-- A store on which every row scanned by quota check is agreeable. -/
def StoreOk (store : Store) : Prop :=
  ∀ n ∈ SHEETS,
    (∀ row ∈ readRange (store n) 7 13, RowOk row) ∧
      ∀ row ∈ readRange (store n) 19 40, RowOk row

instance (store : Store) : Decidable (StoreOk store) := by
  unfold StoreOk; infer_instance

/-- A store populated on the first configured sheet only. -/
def storeOne (rows : List (List Cell)) : Store :=
  fun n => if n = "TROOPER_COMPANY" then rows else []

/-- Store with one top-block row: row 7 has identifier "Alice". -/
def storeRow7Alice : Store :=
  storeOne (List.replicate 6 [] ++ [[Cell.empty, Cell.str "Alice"]])

/-- Store with one top-block row: row 7 has identifier "Amy", both flag
cells empty (unchecked) and a numeric F cell. -/
def storeRow7Amy : Store :=
  storeOne (List.replicate 6 [] ++
    [[Cell.empty, Cell.str "Amy", Cell.empty, Cell.empty, Cell.empty, Cell.str "3"]])

/-- Store with top row 8 ("Bob", flags unchecked, F = "abc") and bottom
row 19 ("Trp", flags unchecked, F = "7"). -/
def storeBobTrp : Store :=
  storeOne (List.replicate 6 [] ++
    [[],
     [Cell.empty, Cell.str "Bob", Cell.empty, Cell.empty, Cell.empty, Cell.str "abc"]] ++
    List.replicate 10 [] ++
    [[Cell.empty, Cell.str "Trp", Cell.empty, Cell.empty, Cell.empty, Cell.str "7"]])

/-- Store with top row 9 ("Kay", flags unchecked, F = "x12"). -/
def storeKay : Store :=
  storeOne (List.replicate 6 [] ++
    [[], [],
     [Cell.empty, Cell.str "Kay", Cell.empty, Cell.empty, Cell.empty, Cell.str "x12"]])

/-- Store with top row 8 ("Eve", flags unchecked, F = "oops"). -/
def storeEve : Store :=
  storeOne (List.replicate 6 [] ++
    [[],
     [Cell.empty, Cell.str "Eve", Cell.empty, Cell.empty, Cell.empty, Cell.str "oops"]])

/-- Store whose scanned rows all agree between the two files: top rows 7
and 8 with numeric or empty F cells, bottom row 19. -/
def storeAgree : Store :=
  storeOne (List.replicate 6 [] ++
    [[Cell.empty, Cell.str "Lead", Cell.empty, Cell.empty, Cell.empty, Cell.str "2"],
     [Cell.empty, Cell.str "Mem", Cell.empty, Cell.empty, Cell.empty, Cell.str "5"]] ++
    List.replicate 10 [] ++
    [[Cell.empty, Cell.str "Grunt", Cell.empty, Cell.empty, Cell.empty, Cell.str ""]])

/-- Store with an empty row 7 and a populated row 8 ("Xan"). -/
def storeEmptyRow7 : Store :=
  storeOne (List.replicate 6 [] ++ [[], [Cell.empty, Cell.str "Xan"]])

/-- Store for the duplicate-target add scenario: row 3 has identifier
"Alice", C = "10", D = "2". -/
def storeAliceAdd : Store :=
  storeOne [[], [], [Cell.empty, Cell.str "Alice", Cell.str "10", Cell.str "2"]]

/-- C1: the claim says the rows-7-to-10 loop stages exactly one write
resetting column G per row with non-empty column B. `src/unnamed/part_000`
does exactly that, but `src/index.js` targets column B instead (erasing
the identifier), against its own comment that names must not be
overwritten: on a store whose first sheet has row 7 with identifier
"Alice", `src/index.js` stages a column-B write and no column-G write,
while `src/unnamed/part_000` stages exactly the claimed column-G write. -/
theorem C1_reset_target_eval :
    (Main.quotaCheck storeRow7Alice).updates.filter (fun u => u.col == 'B')
        = [⟨"TROOPER_COMPANY", 'B', 7, JsNum.int 0⟩] ∧
    (Main.quotaCheck storeRow7Alice).updates.filter (fun u => u.col == 'G') = [] ∧
    (Alt.quotaCheck storeRow7Alice).map
        (fun res => res.updates.filter (fun u => u.col == 'G'))
        = some [⟨"TROOPER_COMPANY", 'G', 7, JsNum.int 0⟩] ∧
    (Alt.quotaCheck storeRow7Alice).map
        (fun res => res.updates.filter (fun u => u.col == 'B')) = some [] := by
  decide

/-- C2: on a store whose first sheet has row 7 with identifier "Amy" and
both flag cells empty (unchecked), neither engine stages a column-F
quota-increment write for row 7 and neither records a top-increment
entry; both stage the D and E resets, but only `src/unnamed/part_000`
stages the claimed column-G reset — `src/index.js` stages a column-B
write (erasing the identifier) instead. -/
theorem C2_row7_eval :
    (Main.quotaCheck storeRow7Amy).updates
        = [⟨"TROOPER_COMPANY", 'D', 7, JsNum.int 0⟩,
           ⟨"TROOPER_COMPANY", 'E', 7, JsNum.int 0⟩,
           ⟨"TROOPER_COMPANY", 'B', 7, JsNum.int 0⟩] ∧
    (Main.quotaCheck storeRow7Amy).topIncrements = [] ∧
    (Alt.quotaCheck storeRow7Amy).map QCResult.updates
        = some [⟨"TROOPER_COMPANY", 'D', 7, JsNum.int 0⟩,
                ⟨"TROOPER_COMPANY", 'E', 7, JsNum.int 0⟩,
                ⟨"TROOPER_COMPANY", 'G', 7, JsNum.int 0⟩] ∧
    (Alt.quotaCheck storeRow7Amy).map QCResult.topIncrements = some [] := by
  decide

/-- C3: on a store whose first sheet has top row 8 with identifier "Bob",
both flags unchecked and a malformed F cell "abc", and bottom row 19 with
identifier "Trp", both flags unchecked and F cell "7": `src/index.js`
stages exactly the claimed writes of `coerceInt(F) + 1` (1 for "abc", 8
for "7") and records the matching summary entries, but
`src/unnamed/part_000` stages `Number('abc') + 1 = NaN` for row 8, not
the claimed `coerceInt('abc') + 1 = 1`. -/
theorem C3_increment_eval :
    (Main.quotaCheck storeBobTrp).topIncrements
        = [⟨"TROOPER_COMPANY", 8, "Bob", JsNum.int 1⟩] ∧
    (Main.quotaCheck storeBobTrp).bottomIncrements
        = [⟨"TROOPER_COMPANY", 19, "Trp", JsNum.int 8⟩] ∧
    (Main.quotaCheck storeBobTrp).updates.filter (fun u => u.col == 'F')
        = [⟨"TROOPER_COMPANY", 'F', 8, JsNum.int 1⟩,
           ⟨"TROOPER_COMPANY", 'F', 19, JsNum.int 8⟩] ∧
    (Alt.quotaCheck storeBobTrp).map QCResult.topIncrements
        = some [⟨"TROOPER_COMPANY", 8, "Bob", JsNum.nan⟩] ∧
    (Alt.quotaCheck storeBobTrp).map
        (fun res => res.updates.filter (fun u => u.col == 'F'))
        = some [⟨"TROOPER_COMPANY", 'F', 8, JsNum.nan⟩,
                ⟨"TROOPER_COMPANY", 'F', 19, JsNum.int 8⟩] := by
  decide

/-- C5: on a store whose first sheet has top row 9 with identifier "Kay",
both flags unchecked and the non-empty non-numeric F cell "x12":
`src/index.js` behaves as claimed — the current value is coerced to 0 and
the staged value is the integer 1 — but `src/unnamed/part_000` stages
`Number('x12') + 1 = NaN`, a non-integer value. -/
theorem C5_malformed_counter_eval :
    (Main.quotaCheck storeKay).updates.filter (fun u => u.col == 'F')
        = [⟨"TROOPER_COMPANY", 'F', 9, JsNum.int 1⟩] ∧
    coerceInt (Cell.str "x12") = 0 ∧
    (Alt.quotaCheck storeKay).map
        (fun res => res.updates.filter (fun u => u.col == 'F'))
        = some [⟨"TROOPER_COMPANY", 'F', 9, JsNum.nan⟩] := by
  decide

/-- C6 counterexample: on a store whose first sheet has top row 8 with
identifier "Eve", both flags unchecked and F cell "oops", the two engines
do not stage the same writes even after retargeting the rows-7-to-10
column-B resets of `src/index.js` to column G, and their top-increment
summaries differ outright (integer 1 versus NaN). -/
theorem C6_counterexample :
    Alt.quotaCheck storeEve ≠ some (retargetResult (Main.quotaCheck storeEve)) ∧
    (Alt.quotaCheck storeEve).map QCResult.topIncrements
      ≠ some (Main.quotaCheck storeEve).topIncrements := by
  decide

theorem digitVal_digitChar {d : Nat} (h : d < 10) :
    digitVal (Nat.digitChar d) = d := by
  interval_cases d <;> rfl

theorem isDigit_digitChar {d : Nat} (h : d < 10) :
    (Nat.digitChar d).isDigit = true := by
  interval_cases d <;> rfl

theorem not_ws_of_isDigit {c : Char} (h : c.isDigit = true) :
    c.isWhitespace = false := by
  rcases hc : c.isWhitespace with _ | _
  · rfl
  · exfalso
    simp only [Char.isWhitespace, Bool.or_eq_true, decide_eq_true_eq] at hc
    rcases hc with ((h1 | h1) | h1) | h1 <;> exact absurd (h1 ▸ h) (by decide)

theorem ne_dash_of_isDigit {c : Char} (h : c.isDigit = true) : ¬(c = '-') := by
  intro hc
  subst hc
  simp [Char.isDigit] at h

theorem ne_plus_of_isDigit {c : Char} (h : c.isDigit = true) : ¬(c = '+') := by
  intro hc
  subst hc
  simp [Char.isDigit] at h

theorem takeWhile_all {p : Char → Bool} :
    ∀ {l : List Char}, (∀ c ∈ l, p c = true) → l.takeWhile p = l := by
  intro l
  induction l with
  | nil => intro _; rfl
  | cons c rest ih =>
      intro h
      rw [List.takeWhile_cons, h c (by simp)]
      simp [ih fun x hx => h x (by simp [hx])]

theorem natOfDigits_concat (l : List Char) (c : Char) :
    natOfDigits (l ++ [c]) = 10 * natOfDigits l + digitVal c := by
  simp [natOfDigits, List.foldl_append]

theorem natCharsAux_isDigit :
    ∀ (fuel m : Nat), ∀ c ∈ natCharsAux fuel m, c.isDigit = true := by
  intro fuel
  induction fuel with
  | zero => intro m c hc; simp [natCharsAux] at hc
  | succ fuel ih =>
      intro m c hc
      rw [natCharsAux] at hc
      by_cases hm : m = 0
      · rw [if_pos hm] at hc
        simp at hc
      · rw [if_neg hm] at hc
        rcases List.mem_append.mp hc with h1 | h1
        · exact ih _ c h1
        · simp only [List.mem_singleton] at h1
          subst h1
          exact isDigit_digitChar (Nat.mod_lt _ (by omega))

theorem natCharsAux_val :
    ∀ (fuel m : Nat), m ≤ fuel → natOfDigits (natCharsAux fuel m) = m := by
  intro fuel
  induction fuel with
  | zero =>
      intro m hm
      interval_cases m
      rfl
  | succ fuel ih =>
      intro m hm
      rw [natCharsAux]
      by_cases hm0 : m = 0
      · rw [if_pos hm0, hm0]
        rfl
      · rw [if_neg hm0, natOfDigits_concat, ih (m / 10) (by omega),
          digitVal_digitChar (Nat.mod_lt _ (by omega))]
        omega

theorem mem_natChars_isDigit {m : Nat} {c : Char} (hc : c ∈ natChars m) :
    c.isDigit = true :=
  natCharsAux_isDigit m m c hc

theorem natOfDigits_natChars (m : Nat) : natOfDigits (natChars m) = m :=
  natCharsAux_val m m le_rfl

theorem natChars_ne_nil {m : Nat} (hm : m ≠ 0) : natChars m ≠ [] := by
  unfold natChars
  cases m with
  | zero => exact absurd rfl hm
  | succ k =>
      rw [natCharsAux, if_neg (by omega)]
      simp

theorem isHexPrefix_digits {l : List Char} (h : ∀ c ∈ l, c.isDigit = true) :
    isHexPrefix l = false := by
  cases l with
  | nil => rfl
  | cons a t =>
      cases t with
      | nil => rfl
      | cons b t2 =>
          have hb : b.isDigit = true := h b (by simp)
          have hbx : (b == 'x') = false := by
            refine beq_eq_false_iff_ne.mpr fun hh => ?_
            subst hh
            exact absurd hb (by decide)
          have hbX : (b == 'X') = false := by
            refine beq_eq_false_iff_ne.mpr fun hh => ?_
            subst hh
            exact absurd hb (by decide)
          simp [isHexPrefix, hbx, hbX]

theorem parseIntChars_digits {l : List Char} (hl : l ≠ [])
    (h : ∀ c ∈ l, c.isDigit = true) :
    parseIntChars l = some (natOfDigits l : Int) := by
  obtain ⟨c, rest, rfl⟩ := List.exists_cons_of_ne_nil hl
  have hc : c.isDigit = true := h c (by simp)
  simp only [parseIntChars, List.dropWhile_cons, not_ws_of_isDigit hc, Bool.false_eq_true,
    if_false, parseSign, ne_dash_of_isDigit hc, ne_plus_of_isDigit hc,
    isHexPrefix_digits h, takeWhile_all h]
  simp

theorem parseSign_neg (l : List Char) : parseSign ('-' :: l) = (-1, l) := by
  simp [parseSign]

theorem parseIntChars_neg_digits {l : List Char} (hl : l ≠ [])
    (h : ∀ c ∈ l, c.isDigit = true) :
    parseIntChars ('-' :: l) = some (-(natOfDigits l : Int)) := by
  have hws : Char.isWhitespace '-' = false := by decide
  simp only [parseIntChars, List.dropWhile_cons, hws, Bool.false_eq_true, if_false,
    parseSign_neg, isHexPrefix_digits h, takeWhile_all h]
  rw [if_neg (by simpa using hl)]
  simp

theorem coerceIntNum_eq_of_lt {n : Int} (hn : n.natAbs < tenPow 21) :
    coerceIntNum n = n := by
  unfold coerceIntNum
  by_cases h0 : n = 0
  · simp [h0]
  · rw [if_neg h0]
    unfold jsStringOfInt
    by_cases hneg : n < 0
    · rw [if_pos hneg]
      have habs : n.natAbs ≠ 0 := by omega
      have hd : ("-" ++ jsStringOfNat n.natAbs).toList = '-' :: natChars n.natAbs := by
        simp [jsStringOfNat, habs, hn, String.toList]
      rw [parseIntJs, hd,
        parseIntChars_neg_digits (natChars_ne_nil habs) fun c hc => mem_natChars_isDigit hc,
        natOfDigits_natChars]
      simp only [Option.getD_some]
      omega
    · rw [if_neg hneg]
      have htn : n.toNat ≠ 0 := by omega
      have htl : n.toNat < tenPow 21 := by omega
      have hd : (jsStringOfNat n.toNat).toList = natChars n.toNat := by
        simp [jsStringOfNat, htn, htl, String.toList]
      rw [parseIntJs, hd,
        parseIntChars_digits (natChars_ne_nil htn) fun c hc => mem_natChars_isDigit hc,
        natOfDigits_natChars]
      simp only [Option.getD_some]
      omega

/-- C7 counterexample: a cell holding the 23-digit decimal integer 10²²
(a plain numeric string) coerces to 10²², but re-applying the coercion to
that output stringifies it exponentially — JavaScript renders
`String(1e22)` as `"1e+22"` — and `parseInt` stops at the `e`, giving 1,
not 10²²: the coercion is not idempotent on its own output. -/
theorem C7_counterexample :
    coerceInt (Cell.str "10000000000000000000000") = 10000000000000000000000 ∧
    coerceIntNum (coerceInt (Cell.str "10000000000000000000000")) = 1 ∧
    ¬(coerceIntNum (coerceInt (Cell.str "10000000000000000000000"))
        = coerceInt (Cell.str "10000000000000000000000")) := by
  decide

/-- C7 (amended): for every cell value, the integer coercion used by the
counter mutators returns 0 when the cell is empty or non-numeric and
otherwise the parsed integer; and re-applying the same coercion to its
own output gives the output back unchanged whenever that output's
magnitude is below 10²¹ — the threshold at which JavaScript switches
`String(n)` to exponential notation, above which re-coercion collapses
to the leading digit. -/
theorem C7_coerceInt_spec_amended (v : Cell) :
    coerceInt v = (match parseCell v with | none => 0 | some n => n) ∧
    ((coerceInt v).natAbs < tenPow 21 →
      coerceIntNum (coerceInt v) = coerceInt v) := by
  refine ⟨?_, fun h => coerceIntNum_eq_of_lt h⟩
  cases v with
  | empty => rfl
  | boolean b => rfl
  | str s =>
      by_cases hs : s = ""
      · simp [coerceInt, parseCell, hs]
      · simp only [coerceInt, parseCell, hs, if_false]
        cases parseIntJs s <;> rfl

theorem C7_coerceInt_spec_amended_witness :
    coerceInt (Cell.str "37")
        = (match parseCell (Cell.str "37") with | none => 0 | some n => n) ∧
    coerceIntNum (coerceInt (Cell.str "37")) = coerceInt (Cell.str "37") :=
  ⟨(C7_coerceInt_spec_amended (Cell.str "37")).1,
   (C7_coerceInt_spec_amended (Cell.str "37")).2 (by decide)⟩

theorem Main.mem_processTopRow_updates {s : String} {i : Nat} {row : List Cell}
    {u : Update} (hu : u ∈ (Main.processTopRow s i row).1) :
    u.sheet = s ∧ u.row = 7 + i ∧ bIdent row ≠ "" ∧
      (u.col = 'F' ∨ u.col = 'D' ∨ u.col = 'E') := by
  by_cases hb : bIdent row = ""
  · simp [Main.processTopRow, hb] at hu
  · simp only [Main.processTopRow, hb, if_false] at hu
    split at hu <;> [skip; (simp at hu; rcases hu with rfl | rfl <;> simp [hb])]
    split at hu <;> simp at hu <;> rcases hu with rfl | rfl | rfl <;> simp [hb]

theorem Main.mem_processTopRow_incs {s : String} {i : Nat} {row : List Cell}
    {e : Inc} (he : e ∈ (Main.processTopRow s i row).2) :
    e.sheet = s ∧ e.row = 7 + i ∧ bIdent row ≠ "" := by
  by_cases hb : bIdent row = ""
  · simp [Main.processTopRow, hb] at he
  · simp only [Main.processTopRow, hb, if_false] at he
    split at he <;> [skip; simp at he]
    split at he <;> simp at he
    subst he
    simp [hb]

theorem Main.mem_topPass_updates {s : String} :
    ∀ {i : Nat} {g : List (List Cell)} {u : Update}, u ∈ (Main.topPass s i g).1 →
      ∃ j, j < g.length ∧ u.sheet = s ∧ u.row = 7 + i + j ∧
        bIdent (g.getD j []) ≠ "" ∧ (u.col = 'F' ∨ u.col = 'D' ∨ u.col = 'E') := by
  intro i g
  induction g generalizing i with
  | nil => intro u hu; simp [Main.topPass] at hu
  | cons row rest ih =>
      intro u hu
      rw [Main.topPass] at hu
      rcases List.mem_append.mp hu with h1 | h2
      · obtain ⟨hs, hr, hb, hc⟩ := Main.mem_processTopRow_updates h1
        exact ⟨0, by simp, hs, by omega, by simpa using hb, hc⟩
      · obtain ⟨j, hj, hs, hr, hb, hc⟩ := ih h2
        exact ⟨j + 1, by simpa using hj, hs, by omega, by simpa using hb, hc⟩

theorem Main.mem_topPass_incs {s : String} :
    ∀ {i : Nat} {g : List (List Cell)} {e : Inc}, e ∈ (Main.topPass s i g).2 →
      ∃ j, j < g.length ∧ e.sheet = s ∧ e.row = 7 + i + j ∧
        bIdent (g.getD j []) ≠ "" := by
  intro i g
  induction g generalizing i with
  | nil => intro e he; simp [Main.topPass] at he
  | cons row rest ih =>
      intro e he
      rw [Main.topPass] at he
      rcases List.mem_append.mp he with h1 | h2
      · obtain ⟨hs, hr, hb⟩ := Main.mem_processTopRow_incs h1
        exact ⟨0, by simp, hs, by omega, by simpa using hb⟩
      · obtain ⟨j, hj, hs, hr, hb⟩ := ih h2
        exact ⟨j + 1, by simpa using hj, hs, by omega, by simpa using hb⟩

theorem Main.mem_tryReset {s : String} {g : List (List Cell)} {r : Nat} {u : Update}
    (hu : u ∈ Main.tryReset s g r) :
    u.sheet = s ∧ u.row = r ∧ u.col = 'B' ∧ bIdent (g.getD (r - 7) []) ≠ "" := by
  unfold Main.tryReset at hu
  split at hu
  · simp at hu
  · next hb =>
      simp only [List.mem_singleton] at hu
      subst hu
      exact ⟨rfl, rfl, rfl, hb⟩

theorem Main.mem_resetLoop {s : String} {g : List (List Cell)} {u : Update}
    (hu : u ∈ Main.resetLoop s g) :
    u.sheet = s ∧ u.col = 'B' ∧ (7 ≤ u.row ∧ u.row ≤ 10) ∧
      bIdent (g.getD (u.row - 7) []) ≠ "" := by
  rw [Main.resetLoop] at hu
  rcases List.mem_append.mp hu with h | h
  rotate_left
  · obtain ⟨hs, hr, hc, hb⟩ := Main.mem_tryReset h
    exact ⟨hs, hc, by omega, by rw [hr]; exact hb⟩
  rcases List.mem_append.mp h with h | h
  rotate_left
  · obtain ⟨hs, hr, hc, hb⟩ := Main.mem_tryReset h
    exact ⟨hs, hc, by omega, by rw [hr]; exact hb⟩
  rcases List.mem_append.mp h with h | h
  · obtain ⟨hs, hr, hc, hb⟩ := Main.mem_tryReset h
    exact ⟨hs, hc, by omega, by rw [hr]; exact hb⟩
  · obtain ⟨hs, hr, hc, hb⟩ := Main.mem_tryReset h
    exact ⟨hs, hc, by omega, by rw [hr]; exact hb⟩

theorem Main.mem_processBottomRow_updates {s : String} {i : Nat} {row : List Cell}
    {u : Update} (hu : u ∈ (Main.processBottomRow s i row).1) :
    u.sheet = s ∧ u.row = 19 + i ∧ bIdent row ≠ "" ∧ (u.col = 'F' ∨ u.col = 'D') := by
  by_cases hb : bIdent row = ""
  · simp [Main.processBottomRow, hb] at hu
  · simp only [Main.processBottomRow, hb, if_false] at hu
    split at hu <;> simp at hu <;> rcases hu with rfl | rfl <;> simp [hb]

theorem Main.mem_processBottomRow_incs {s : String} {i : Nat} {row : List Cell}
    {e : Inc} (he : e ∈ (Main.processBottomRow s i row).2) :
    e.sheet = s ∧ e.row = 19 + i ∧ bIdent row ≠ "" := by
  by_cases hb : bIdent row = ""
  · simp [Main.processBottomRow, hb] at he
  · simp only [Main.processBottomRow, hb, if_false] at he
    split at he <;> simp at he
    subst he
    simp [hb]

theorem Main.mem_bottomPass_updates {s : String} :
    ∀ {i : Nat} {g : List (List Cell)} {u : Update}, u ∈ (Main.bottomPass s i g).1 →
      ∃ j, j < g.length ∧ u.sheet = s ∧ u.row = 19 + i + j ∧
        bIdent (g.getD j []) ≠ "" ∧ (u.col = 'F' ∨ u.col = 'D') := by
  intro i g
  induction g generalizing i with
  | nil => intro u hu; simp [Main.bottomPass] at hu
  | cons row rest ih =>
      intro u hu
      rw [Main.bottomPass] at hu
      rcases List.mem_append.mp hu with h1 | h2
      · obtain ⟨hs, hr, hb, hc⟩ := Main.mem_processBottomRow_updates h1
        exact ⟨0, by simp, hs, by omega, by simpa using hb, hc⟩
      · obtain ⟨j, hj, hs, hr, hb, hc⟩ := ih h2
        exact ⟨j + 1, by simpa using hj, hs, by omega, by simpa using hb, hc⟩

theorem Main.mem_bottomPass_incs {s : String} :
    ∀ {i : Nat} {g : List (List Cell)} {e : Inc}, e ∈ (Main.bottomPass s i g).2 →
      ∃ j, j < g.length ∧ e.sheet = s ∧ e.row = 19 + i + j ∧
        bIdent (g.getD j []) ≠ "" := by
  intro i g
  induction g generalizing i with
  | nil => intro e he; simp [Main.bottomPass] at he
  | cons row rest ih =>
      intro e he
      rw [Main.bottomPass] at he
      rcases List.mem_append.mp he with h1 | h2
      · obtain ⟨hs, hr, hb⟩ := Main.mem_processBottomRow_incs h1
        exact ⟨0, by simp, hs, by omega, by simpa using hb⟩
      · obtain ⟨j, hj, hs, hr, hb⟩ := ih h2
        exact ⟨j + 1, by simpa using hj, hs, by omega, by simpa using hb⟩

theorem readRange_length_le (rows : List (List Cell)) (a b : Nat) :
    (readRange rows a b).length ≤ b - a + 1 := by
  simp [readRange]

theorem Main.sheetRun_updates_char {store : Store} {n : String} {u : Update}
    (hu : u ∈ (Main.sheetRun store n).updates) :
    u.sheet = n ∧
      ((7 ≤ u.row ∧ u.row ≤ 13 ∧
          bIdent ((readRange (store n) 7 13).getD (u.row - 7) []) ≠ "") ∨
       (19 ≤ u.row ∧ u.row ≤ 40 ∧
          bIdent ((readRange (store n) 19 40).getD (u.row - 19) []) ≠ "")) := by
  have htop := readRange_length_le (store n) 7 13
  have hbot := readRange_length_le (store n) 19 40
  rw [Main.sheetRun] at hu
  simp only [List.append_assoc, List.mem_append] at hu
  rcases hu with h | h | h
  · obtain ⟨j, hj, hs, hr, hb, _⟩ := Main.mem_topPass_updates h
    refine ⟨hs, Or.inl ⟨by omega, by omega, ?_⟩⟩
    have : u.row - 7 = j := by omega
    rwa [this]
  · obtain ⟨hs, hc, hr, hb⟩ := Main.mem_resetLoop h
    exact ⟨hs, Or.inl ⟨by omega, by omega, hb⟩⟩
  · obtain ⟨j, hj, hs, hr, hb, _⟩ := Main.mem_bottomPass_updates h
    refine ⟨hs, Or.inr ⟨by omega, by omega, ?_⟩⟩
    have : u.row - 19 = j := by omega
    rwa [this]

theorem Main.sheetRun_topIncs_char {store : Store} {n : String} {e : Inc}
    (he : e ∈ (Main.sheetRun store n).topIncs) :
    e.sheet = n ∧ 7 ≤ e.row ∧ e.row ≤ 13 ∧
      bIdent ((readRange (store n) 7 13).getD (e.row - 7) []) ≠ "" := by
  have htop := readRange_length_le (store n) 7 13
  rw [Main.sheetRun] at he
  obtain ⟨j, hj, hs, hr, hb⟩ := Main.mem_topPass_incs he
  refine ⟨hs, by omega, by omega, ?_⟩
  have : e.row - 7 = j := by omega
  rwa [this]

theorem Main.sheetRun_botIncs_char {store : Store} {n : String} {e : Inc}
    (he : e ∈ (Main.sheetRun store n).botIncs) :
    e.sheet = n ∧ 19 ≤ e.row ∧ e.row ≤ 40 ∧
      bIdent ((readRange (store n) 19 40).getD (e.row - 19) []) ≠ "" := by
  have hbot := readRange_length_le (store n) 19 40
  rw [Main.sheetRun] at he
  obtain ⟨j, hj, hs, hr, hb⟩ := Main.mem_bottomPass_incs he
  refine ⟨hs, by omega, by omega, ?_⟩
  have : e.row - 19 = j := by omega
  rwa [this]

theorem Alt.processTopRow_char {s : String} {i : Nat} {row : List Cell}
    {p : List Update × List Inc} (hp : Alt.processTopRow s i row = some p) :
    (∀ u ∈ p.1, u.sheet = s ∧ u.row = 7 + i ∧ bIdentP row ≠ some "" ∧
        (u.col = 'F' ∨ u.col = 'D' ∨ u.col = 'E')) ∧
    (∀ e ∈ p.2, e.sheet = s ∧ e.row = 7 + i ∧ bIdentP row ≠ some "") := by
  unfold Alt.processTopRow at hp
  cases hb : bIdentP row with
  | none => rw [hb] at hp; exact absurd hp (by simp)
  | some m =>
      rw [hb] at hp
      dsimp only at hp
      by_cases hm : m = ""
      · rw [if_pos hm] at hp
        injection hp with hp
        subst hp
        exact ⟨by simp, by simp⟩
      · rw [if_neg hm] at hp
        injection hp with hp
        subst hp
        constructor
        · intro u hu
          split at hu <;>
            [skip; (simp at hu; rcases hu with rfl | rfl <;> simp [hm])]
          split at hu <;> simp at hu <;> rcases hu with rfl | rfl | rfl <;> simp [hm]
        · intro e he
          split at he <;> [skip; simp at he]
          split at he <;> simp at he
          subst he
          simp [hm]

theorem Alt.topPass_char {s : String} :
    ∀ {i : Nat} {g : List (List Cell)} {p : List Update × List Inc},
      Alt.topPass s i g = some p →
      (∀ u ∈ p.1, ∃ j, j < g.length ∧ u.sheet = s ∧ u.row = 7 + i + j ∧
          bIdentP (g.getD j []) ≠ some "" ∧ (u.col = 'F' ∨ u.col = 'D' ∨ u.col = 'E')) ∧
      (∀ e ∈ p.2, ∃ j, j < g.length ∧ e.sheet = s ∧ e.row = 7 + i + j ∧
          bIdentP (g.getD j []) ≠ some "") := by
  intro i g
  induction g generalizing i with
  | nil =>
      intro p hp
      rw [Alt.topPass] at hp
      injection hp with hp
      subst hp
      exact ⟨by simp, by simp⟩
  | cons row rest ih =>
      intro p hp
      rw [Alt.topPass] at hp
      cases hq : Alt.processTopRow s i row with
      | none => rw [hq] at hp; exact absurd hp (by simp)
      | some q =>
          rw [hq] at hp
          cases hr : Alt.topPass s (i + 1) rest with
          | none => rw [hr] at hp; exact absurd hp (by simp)
          | some r =>
              rw [hr] at hp
              injection hp with hp
              subst hp
              obtain ⟨hq1, hq2⟩ := Alt.processTopRow_char hq
              obtain ⟨hr1, hr2⟩ := ih hr
              constructor
              · intro u hu
                rcases List.mem_append.mp hu with h | h
                · obtain ⟨hs, hrow, hb, hc⟩ := hq1 u h
                  exact ⟨0, by simp, hs, by omega, by simpa using hb, hc⟩
                · obtain ⟨j, hj, hs, hrow, hb, hc⟩ := hr1 u h
                  exact ⟨j + 1, by simpa using hj, hs, by omega, by simpa using hb, hc⟩
              · intro e he
                rcases List.mem_append.mp he with h | h
                · obtain ⟨hs, hrow, hb⟩ := hq2 e h
                  exact ⟨0, by simp, hs, by omega, by simpa using hb⟩
                · obtain ⟨j, hj, hs, hrow, hb⟩ := hr2 e h
                  exact ⟨j + 1, by simpa using hj, hs, by omega, by simpa using hb⟩

theorem Alt.processBottomRow_char {s : String} {i : Nat} {row : List Cell}
    {p : List Update × List Inc} (hp : Alt.processBottomRow s i row = some p) :
    (∀ u ∈ p.1, u.sheet = s ∧ u.row = 19 + i ∧ bIdentP row ≠ some "" ∧
        (u.col = 'F' ∨ u.col = 'D')) ∧
    (∀ e ∈ p.2, e.sheet = s ∧ e.row = 19 + i ∧ bIdentP row ≠ some "") := by
  unfold Alt.processBottomRow at hp
  cases hb : bIdentP row with
  | none => rw [hb] at hp; exact absurd hp (by simp)
  | some m =>
      rw [hb] at hp
      dsimp only at hp
      by_cases hm : m = ""
      · rw [if_pos hm] at hp
        injection hp with hp
        subst hp
        exact ⟨by simp, by simp⟩
      · rw [if_neg hm] at hp
        injection hp with hp
        subst hp
        constructor
        · intro u hu
          split at hu <;> simp at hu <;> rcases hu with rfl | rfl <;> simp [hm]
        · intro e he
          split at he <;> simp at he
          subst he
          simp [hm]

theorem Alt.bottomPass_char {s : String} :
    ∀ {i : Nat} {g : List (List Cell)} {p : List Update × List Inc},
      Alt.bottomPass s i g = some p →
      (∀ u ∈ p.1, ∃ j, j < g.length ∧ u.sheet = s ∧ u.row = 19 + i + j ∧
          bIdentP (g.getD j []) ≠ some "" ∧ (u.col = 'F' ∨ u.col = 'D')) ∧
      (∀ e ∈ p.2, ∃ j, j < g.length ∧ e.sheet = s ∧ e.row = 19 + i + j ∧
          bIdentP (g.getD j []) ≠ some "") := by
  intro i g
  induction g generalizing i with
  | nil =>
      intro p hp
      rw [Alt.bottomPass] at hp
      injection hp with hp
      subst hp
      exact ⟨by simp, by simp⟩
  | cons row rest ih =>
      intro p hp
      rw [Alt.bottomPass] at hp
      cases hq : Alt.processBottomRow s i row with
      | none => rw [hq] at hp; exact absurd hp (by simp)
      | some q =>
          rw [hq] at hp
          cases hr : Alt.bottomPass s (i + 1) rest with
          | none => rw [hr] at hp; exact absurd hp (by simp)
          | some r =>
              rw [hr] at hp
              injection hp with hp
              subst hp
              obtain ⟨hq1, hq2⟩ := Alt.processBottomRow_char hq
              obtain ⟨hr1, hr2⟩ := ih hr
              constructor
              · intro u hu
                rcases List.mem_append.mp hu with h | h
                · obtain ⟨hs, hrow, hb, hc⟩ := hq1 u h
                  exact ⟨0, by simp, hs, by omega, by simpa using hb, hc⟩
                · obtain ⟨j, hj, hs, hrow, hb, hc⟩ := hr1 u h
                  exact ⟨j + 1, by simpa using hj, hs, by omega, by simpa using hb, hc⟩
              · intro e he
                rcases List.mem_append.mp he with h | h
                · obtain ⟨hs, hrow, hb⟩ := hq2 e h
                  exact ⟨0, by simp, hs, by omega, by simpa using hb⟩
                · obtain ⟨j, hj, hs, hrow, hb⟩ := hr2 e h
                  exact ⟨j + 1, by simpa using hj, hs, by omega, by simpa using hb⟩

theorem Alt.tryReset_char {s : String} {g : List (List Cell)} {r : Nat}
    {l : List Update} (hl : Alt.tryReset s g r = some l) :
    ∀ u ∈ l, u.sheet = s ∧ u.row = r ∧ u.col = 'G' ∧
      bIdentP (g.getD (r - 7) []) ≠ some "" := by
  unfold Alt.tryReset at hl
  cases hb : bIdentP (g.getD (r - 7) []) with
  | none => rw [hb] at hl; exact absurd hl (by simp)
  | some m =>
      rw [hb] at hl
      dsimp only at hl
      by_cases hm : m = ""
      · rw [if_pos hm] at hl
        injection hl with hl
        subst hl
        simp
      · rw [if_neg hm] at hl
        injection hl with hl
        subst hl
        intro u hu
        simp only [List.mem_singleton] at hu
        subst hu
        exact ⟨rfl, rfl, rfl, by simp [hm]⟩

theorem Alt.resetLoop_char {s : String} {g : List (List Cell)} {l : List Update}
    (hl : Alt.resetLoop s g = some l) :
    ∀ u ∈ l, u.sheet = s ∧ u.col = 'G' ∧ (7 ≤ u.row ∧ u.row ≤ 10) ∧
      bIdentP (g.getD (u.row - 7) []) ≠ some "" := by
  unfold Alt.resetLoop at hl
  cases h7 : Alt.tryReset s g 7 with
  | none => rw [h7] at hl; exact absurd hl (by simp)
  | some a =>
  rw [h7] at hl
  cases h8 : Alt.tryReset s g 8 with
  | none => rw [h8] at hl; exact absurd hl (by simp)
  | some b =>
  rw [h8] at hl
  cases h9 : Alt.tryReset s g 9 with
  | none => rw [h9] at hl; exact absurd hl (by simp)
  | some c =>
  rw [h9] at hl
  cases h10 : Alt.tryReset s g 10 with
  | none => rw [h10] at hl; exact absurd hl (by simp)
  | some d =>
  rw [h10] at hl
  injection hl with hl
  subst hl
  intro u hu
  rcases List.mem_append.mp hu with h | h
  rotate_left
  · obtain ⟨hs, hr, hc, hb⟩ := Alt.tryReset_char h10 u h
    exact ⟨hs, hc, by omega, by rw [hr]; exact hb⟩
  rcases List.mem_append.mp h with h | h
  rotate_left
  · obtain ⟨hs, hr, hc, hb⟩ := Alt.tryReset_char h9 u h
    exact ⟨hs, hc, by omega, by rw [hr]; exact hb⟩
  rcases List.mem_append.mp h with h | h
  · obtain ⟨hs, hr, hc, hb⟩ := Alt.tryReset_char h7 u h
    exact ⟨hs, hc, by omega, by rw [hr]; exact hb⟩
  · obtain ⟨hs, hr, hc, hb⟩ := Alt.tryReset_char h8 u h
    exact ⟨hs, hc, by omega, by rw [hr]; exact hb⟩

theorem Alt.sheetRun_char {store : Store} {n : String} {o : SheetOut}
    (ho : Alt.sheetRun store n = some o) :
    (∀ u ∈ o.updates, u.sheet = n ∧
        ((7 ≤ u.row ∧ u.row ≤ 13 ∧
            bIdentP ((readRange (store n) 7 13).getD (u.row - 7) []) ≠ some "") ∨
         (19 ≤ u.row ∧ u.row ≤ 40 ∧
            bIdentP ((readRange (store n) 19 40).getD (u.row - 19) []) ≠ some ""))) ∧
    (∀ e ∈ o.topIncs, e.sheet = n ∧ 7 ≤ e.row ∧ e.row ≤ 13 ∧
        bIdentP ((readRange (store n) 7 13).getD (e.row - 7) []) ≠ some "") ∧
    (∀ e ∈ o.botIncs, e.sheet = n ∧ 19 ≤ e.row ∧ e.row ≤ 40 ∧
        bIdentP ((readRange (store n) 19 40).getD (e.row - 19) []) ≠ some "") := by
  have htop := readRange_length_le (store n) 7 13
  have hbot := readRange_length_le (store n) 19 40
  unfold Alt.sheetRun at ho
  dsimp only at ho
  cases ht : Alt.topPass n 0 (readRange (store n) 7 13) with
  | none => rw [ht] at ho; exact absurd ho (by simp)
  | some t =>
  rw [ht] at ho
  dsimp only at ho
  cases hr : Alt.resetLoop n (readRange (store n) 7 13) with
  | none => rw [hr] at ho; exact absurd ho (by simp)
  | some r =>
  rw [hr] at ho
  dsimp only at ho
  cases hbp : Alt.bottomPass n 0 (readRange (store n) 19 40) with
  | none => rw [hbp] at ho; exact absurd ho (by simp)
  | some b =>
  rw [hbp] at ho
  dsimp only at ho
  injection ho with ho
  subst ho
  obtain ⟨ht1, ht2⟩ := Alt.topPass_char ht
  have hrl := Alt.resetLoop_char hr
  obtain ⟨hb1, hb2⟩ := Alt.bottomPass_char hbp
  refine ⟨?_, ?_, ?_⟩
  · intro u hu
    simp only [List.append_assoc, List.mem_append] at hu
    rcases hu with h | h | h
    · obtain ⟨j, hj, hs, hrow, hbi, _⟩ := ht1 u h
      refine ⟨hs, Or.inl ⟨by omega, by omega, ?_⟩⟩
      have hje : u.row - 7 = j := by omega
      rwa [hje]
    · obtain ⟨hs, hc, hrow, hbi⟩ := hrl u h
      exact ⟨hs, Or.inl ⟨by omega, by omega, hbi⟩⟩
    · obtain ⟨j, hj, hs, hrow, hbi, _⟩ := hb1 u h
      refine ⟨hs, Or.inr ⟨by omega, by omega, ?_⟩⟩
      have hje : u.row - 19 = j := by omega
      rwa [hje]
  · intro e he
    obtain ⟨j, hj, hs, hrow, hbi⟩ := ht2 e he
    refine ⟨hs, by omega, by omega, ?_⟩
    have hje : e.row - 7 = j := by omega
    rwa [hje]
  · intro e he
    obtain ⟨j, hj, hs, hrow, hbi⟩ := hb2 e he
    refine ⟨hs, by omega, by omega, ?_⟩
    have hje : e.row - 19 = j := by omega
    rwa [hje]

theorem Alt.sheetsRun_char {store : Store} :
    ∀ {l : List String} {outs : List (String × SheetOut)},
      Alt.sheetsRun store l = some outs →
      outs.map Prod.fst = l ∧ ∀ p ∈ outs, Alt.sheetRun store p.1 = some p.2 := by
  intro l
  induction l with
  | nil =>
      intro outs h
      rw [Alt.sheetsRun] at h
      injection h with h
      subst h
      simp
  | cons n rest ih =>
      intro outs h
      rw [Alt.sheetsRun] at h
      cases ho : Alt.sheetRun store n with
      | none => rw [ho] at h; exact absurd h (by simp)
      | some o =>
      rw [ho] at h
      dsimp only at h
      cases hr : Alt.sheetsRun store rest with
      | none => rw [hr] at h; exact absurd h (by simp)
      | some rs =>
      rw [hr] at h
      dsimp only at h
      injection h with h
      subst h
      obtain ⟨h1, h2⟩ := ih hr
      refine ⟨by simp [h1], ?_⟩
      intro p hp
      rcases List.mem_cons.mp hp with rfl | hp
      · exact ho
      · exact h2 p hp

theorem Alt.quotaCheck_mem_some {store : Store} {res : QCResult}
    (h : Alt.quotaCheck store = some res) :
    (∀ u ∈ res.updates, ∃ n ∈ SHEETS, ∃ o, Alt.sheetRun store n = some o ∧
        u ∈ o.updates) ∧
    (∀ e ∈ res.topIncrements, ∃ n ∈ SHEETS, ∃ o, Alt.sheetRun store n = some o ∧
        e ∈ o.topIncs) ∧
    (∀ e ∈ res.bottomIncrements, ∃ n ∈ SHEETS, ∃ o, Alt.sheetRun store n = some o ∧
        e ∈ o.botIncs) := by
  unfold Alt.quotaCheck at h
  cases hs : Alt.sheetsRun store SHEETS with
  | none => rw [hs] at h; exact absurd h (by simp)
  | some outs =>
  rw [hs] at h
  dsimp only at h
  injection h with h
  subst h
  obtain ⟨h1, h2⟩ := Alt.sheetsRun_char hs
  refine ⟨?_, ?_, ?_⟩
  · intro u hu
    simp only [List.mem_flatten, List.mem_map] at hu
    obtain ⟨l, ⟨p, hp, rfl⟩, hul⟩ := hu
    exact ⟨p.1, h1 ▸ List.mem_map_of_mem Prod.fst hp, p.2, h2 p hp, hul⟩
  · intro e he
    simp only [List.mem_flatten, List.mem_map] at he
    obtain ⟨l, ⟨p, hp, rfl⟩, hel⟩ := he
    exact ⟨p.1, h1 ▸ List.mem_map_of_mem Prod.fst hp, p.2, h2 p hp, hel⟩
  · intro e he
    simp only [List.mem_flatten, List.mem_map] at he
    obtain ⟨l, ⟨p, hp, rfl⟩, hel⟩ := he
    exact ⟨p.1, h1 ▸ List.mem_map_of_mem Prod.fst hp, p.2, h2 p hp, hel⟩

theorem Main.quotaCheck_mem {store : Store} :
    (∀ u ∈ (Main.quotaCheck store).updates, ∃ n ∈ SHEETS,
        u ∈ (Main.sheetRun store n).updates) ∧
    (∀ e ∈ (Main.quotaCheck store).topIncrements, ∃ n ∈ SHEETS,
        e ∈ (Main.sheetRun store n).topIncs) ∧
    (∀ e ∈ (Main.quotaCheck store).bottomIncrements, ∃ n ∈ SHEETS,
        e ∈ (Main.sheetRun store n).botIncs) := by
  refine ⟨?_, ?_, ?_⟩ <;>
    · intro x hx
      simp only [Main.quotaCheck, List.mem_flatten, List.mem_map] at hx
      obtain ⟨l, ⟨n, hn, rfl⟩, hxl⟩ := hx
      exact ⟨n, hn, hxl⟩

theorem bIdentP_of_bIdent_empty {row : List Cell} (h : bIdent row = "") :
    bIdentP row = some "" := by
  unfold bIdent at h
  unfold bIdentP
  cases hc : getCell row 1 with
  | empty => rfl
  | boolean b => cases b <;> simp_all
  | str s => simp_all

/-- C4: during a quotacheck invocation (in either source file), a row of
the top block (7–13) or the bottom block (19–40) whose trimmed column-B
identifier is empty receives no staged write of any kind in any column
and no summary entry — covering increments, D/E/G resets and the
rows-7-to-10 reset loop alike. -/
theorem C4_empty_ident_inert (store : Store) (n : String) (r : Nat)
    (h : (7 ≤ r ∧ r ≤ 13 ∧ bIdent ((readRange (store n) 7 13).getD (r - 7) []) = "") ∨
         (19 ≤ r ∧ r ≤ 40 ∧ bIdent ((readRange (store n) 19 40).getD (r - 19) []) = "")) :
    (∀ u ∈ (Main.quotaCheck store).updates, ¬(u.sheet = n ∧ u.row = r)) ∧
    (∀ e ∈ (Main.quotaCheck store).topIncrements, ¬(e.sheet = n ∧ e.row = r)) ∧
    (∀ e ∈ (Main.quotaCheck store).bottomIncrements, ¬(e.sheet = n ∧ e.row = r)) ∧
    ∀ res, Alt.quotaCheck store = some res →
      (∀ u ∈ res.updates, ¬(u.sheet = n ∧ u.row = r)) ∧
      (∀ e ∈ res.topIncrements, ¬(e.sheet = n ∧ e.row = r)) ∧
      (∀ e ∈ res.bottomIncrements, ¬(e.sheet = n ∧ e.row = r)) := by
  obtain ⟨hm1, hm2, hm3⟩ := @Main.quotaCheck_mem store
  refine ⟨?_, ?_, ?_, ?_⟩
  · rintro u hu ⟨hsn, rfl⟩
    obtain ⟨n', _, hu'⟩ := hm1 u hu
    obtain ⟨hs', hchar⟩ := Main.sheetRun_updates_char hu'
    rw [hs'] at hsn
    subst hsn
    rcases hchar with ⟨h1, h2, hb⟩ | ⟨h1, h2, hb⟩ <;>
      rcases h with ⟨g1, g2, hg⟩ | ⟨g1, g2, hg⟩ <;>
      first
        | omega
        | exact hb hg
  · rintro e he ⟨hsn, rfl⟩
    obtain ⟨n', _, he'⟩ := hm2 e he
    obtain ⟨hs', h1, h2, hb⟩ := Main.sheetRun_topIncs_char he'
    rw [hs'] at hsn
    subst hsn
    rcases h with ⟨g1, g2, hg⟩ | ⟨g1, g2, hg⟩
    · exact hb hg
    · omega
  · rintro e he ⟨hsn, rfl⟩
    obtain ⟨n', _, he'⟩ := hm3 e he
    obtain ⟨hs', h1, h2, hb⟩ := Main.sheetRun_botIncs_char he'
    rw [hs'] at hsn
    subst hsn
    rcases h with ⟨g1, g2, hg⟩ | ⟨g1, g2, hg⟩
    · omega
    · exact hb hg
  · intro res hres
    obtain ⟨ha1, ha2, ha3⟩ := Alt.quotaCheck_mem_some hres
    refine ⟨?_, ?_, ?_⟩
    · rintro u hu ⟨hsn, rfl⟩
      obtain ⟨n', _, o, ho, hu'⟩ := ha1 u hu
      obtain ⟨hc1, _, _⟩ := Alt.sheetRun_char ho
      obtain ⟨hs', hchar⟩ := hc1 u hu'
      rw [hs'] at hsn
      subst hsn
      rcases hchar with ⟨h1, h2, hb⟩ | ⟨h1, h2, hb⟩ <;>
        rcases h with ⟨g1, g2, hg⟩ | ⟨g1, g2, hg⟩ <;>
        first
          | omega
          | exact hb (bIdentP_of_bIdent_empty hg)
    · rintro e he ⟨hsn, rfl⟩
      obtain ⟨n', _, o, ho, he'⟩ := ha2 e he
      obtain ⟨_, hc2, _⟩ := Alt.sheetRun_char ho
      obtain ⟨hs', h1, h2, hb⟩ := hc2 e he'
      rw [hs'] at hsn
      subst hsn
      rcases h with ⟨g1, g2, hg⟩ | ⟨g1, g2, hg⟩
      · exact hb (bIdentP_of_bIdent_empty hg)
      · omega
    · rintro e he ⟨hsn, rfl⟩
      obtain ⟨n', _, o, ho, he'⟩ := ha3 e he
      obtain ⟨_, _, hc3⟩ := Alt.sheetRun_char ho
      obtain ⟨hs', h1, h2, hb⟩ := hc3 e he'
      rw [hs'] at hsn
      subst hsn
      rcases h with ⟨g1, g2, hg⟩ | ⟨g1, g2, hg⟩
      · omega
      · exact hb (bIdentP_of_bIdent_empty hg)

/-- C9: every cell write staged by a quotacheck invocation (in either
source file) targets a single cell lying within rows 7–13 or rows 19–40
of one of the four configured sheets; no other row of any sheet, and no
sheet outside the configured list, is ever written. -/
theorem C9_frame (store : Store) :
    (∀ u ∈ (Main.quotaCheck store).updates,
        u.sheet ∈ SHEETS ∧ ((7 ≤ u.row ∧ u.row ≤ 13) ∨ (19 ≤ u.row ∧ u.row ≤ 40))) ∧
    ∀ res, Alt.quotaCheck store = some res →
      ∀ u ∈ res.updates,
        u.sheet ∈ SHEETS ∧ ((7 ≤ u.row ∧ u.row ≤ 13) ∨ (19 ≤ u.row ∧ u.row ≤ 40)) := by
  constructor
  · intro u hu
    obtain ⟨n, hn, hu'⟩ := (@Main.quotaCheck_mem store).1 u hu
    obtain ⟨hs, hchar⟩ := Main.sheetRun_updates_char hu'
    refine ⟨hs ▸ hn, ?_⟩
    rcases hchar with ⟨h1, h2, _⟩ | ⟨h1, h2, _⟩
    · exact Or.inl ⟨h1, h2⟩
    · exact Or.inr ⟨h1, h2⟩
  · intro res hres u hu
    obtain ⟨n, hn, o, ho, hu'⟩ := (Alt.quotaCheck_mem_some hres).1 u hu
    obtain ⟨hc1, _, _⟩ := Alt.sheetRun_char ho
    obtain ⟨hs, hchar⟩ := hc1 u hu'
    refine ⟨hs ▸ hn, ?_⟩
    rcases hchar with ⟨h1, h2, _⟩ | ⟨h1, h2, _⟩
    · exact Or.inl ⟨h1, h2⟩
    · exact Or.inr ⟨h1, h2⟩

theorem C4_empty_ident_inert_witness :
    (∀ u ∈ (Main.quotaCheck storeEmptyRow7).updates,
        ¬(u.sheet = "TROOPER_COMPANY" ∧ u.row = 7)) ∧
    (∀ e ∈ (Main.quotaCheck storeEmptyRow7).topIncrements,
        ¬(e.sheet = "TROOPER_COMPANY" ∧ e.row = 7)) ∧
    (∀ e ∈ (Main.quotaCheck storeEmptyRow7).bottomIncrements,
        ¬(e.sheet = "TROOPER_COMPANY" ∧ e.row = 7)) ∧
    ∀ res, Alt.quotaCheck storeEmptyRow7 = some res →
      (∀ u ∈ res.updates, ¬(u.sheet = "TROOPER_COMPANY" ∧ u.row = 7)) ∧
      (∀ e ∈ res.topIncrements, ¬(e.sheet = "TROOPER_COMPANY" ∧ e.row = 7)) ∧
      (∀ e ∈ res.bottomIncrements, ¬(e.sheet = "TROOPER_COMPANY" ∧ e.row = 7)) :=
  C4_empty_ident_inert storeEmptyRow7 "TROOPER_COMPANY" 7 (Or.inl (by decide))

theorem C9_frame_witness :
    (Update.mk "TROOPER_COMPANY" 'D' 8 (JsNum.int 0)).sheet ∈ SHEETS ∧
      ((7 ≤ (Update.mk "TROOPER_COMPANY" 'D' 8 (JsNum.int 0)).row ∧
          (Update.mk "TROOPER_COMPANY" 'D' 8 (JsNum.int 0)).row ≤ 13) ∨
       (19 ≤ (Update.mk "TROOPER_COMPANY" 'D' 8 (JsNum.int 0)).row ∧
          (Update.mk "TROOPER_COMPANY" 'D' 8 (JsNum.int 0)).row ≤ 40)) :=
  (C9_frame storeEmptyRow7).1 ⟨"TROOPER_COMPANY", 'D', 8, JsNum.int 0⟩ (by decide)

theorem callsFor_not_mem {f : String → List Update} :
    ∀ {l : List String} {n : String}, n ∉ l →
      (((l.map fun m => (m, f m)).filterMap fun p =>
          if p.2.isEmpty then none else some p).filter fun c => c.1 == n).length = 0 := by
  intro l
  induction l with
  | nil => intro n _; rfl
  | cons m rest ih =>
      intro n hn
      have hmn : (m == n) = false := by
        have hne : ¬m = n := fun h => hn (by simp [h])
        simpa using hne
      have hrest : n ∉ rest := fun h => hn (List.mem_cons_of_mem _ h)
      rw [List.map_cons, List.filterMap_cons]
      by_cases he : (f m).isEmpty
      · rw [if_pos he]
        exact ih hrest
      · rw [if_neg he, List.filter_cons]
        simp only [hmn, Bool.false_eq_true, if_false]
        exact ih hrest

theorem callsFor_count {f : String → List Update} :
    ∀ {l : List String} {n : String}, n ∈ l → l.Nodup →
      (((l.map fun m => (m, f m)).filterMap fun p =>
          if p.2.isEmpty then none else some p).filter fun c => c.1 == n).length
        = if (f n).isEmpty then 0 else 1 := by
  intro l
  induction l with
  | nil => intro n hn; exact absurd hn (by simp)
  | cons m rest ih =>
      intro n hn hd
      rcases List.mem_cons.mp hn with rfl | hn'
      · have hrest : n ∉ rest := (List.nodup_cons.mp hd).1
        rw [List.map_cons, List.filterMap_cons]
        by_cases he : (f n).isEmpty
        · rw [if_pos he, if_pos he]
          exact callsFor_not_mem hrest
        · rw [if_neg he, if_neg he, List.filter_cons]
          simp only [beq_self_eq_true, if_true, List.length_cons,
            callsFor_not_mem hrest]
      · have hmn : (m == n) = false := by
          have hne : ¬m = n := fun h => (List.nodup_cons.mp hd).1 (h ▸ hn')
          simpa using hne
        rw [List.map_cons, List.filterMap_cons]
        by_cases he : (f m).isEmpty
        · rw [if_pos he]
          exact ih hn' (List.nodup_cons.mp hd).2
        · rw [if_neg he, List.filter_cons]
          simp only [hmn, Bool.false_eq_true, if_false]
          exact ih hn' (List.nodup_cons.mp hd).2

/-- C8: for every command invocation (quotacheck of either file shares
the identical batching structure with the three add-style handlers of
`src/index.js`) and every configured sheet, the number of batch write
calls issued for that sheet is exactly one when at least one write was
staged for it and zero when its staged-write list is empty. -/
theorem C8_at_most_one_batch (store : Store) (input : String) (amount : Int)
    (n : String) (hn : n ∈ SHEETS) :
    (((Main.quotaCheck store).calls.filter fun c => c.1 == n).length
        = if (Main.sheetRun store n).updates.isEmpty then 0 else 1) ∧
    (((handleAdd store input amount).calls.filter fun c => c.1 == n).length
        = if (addPerSheet store input amount n).1.isEmpty then 0 else 1) ∧
    (((handleOfficerAdd store input amount).calls.filter fun c => c.1 == n).length
        = if (officerPerSheet store input amount n).1.isEmpty then 0 else 1) ∧
    (((handleTryoutAdd store input amount).calls.filter fun c => c.1 == n).length
        = if (tryoutPerSheet store input amount n).1.isEmpty then 0 else 1) := by
  have hd : SHEETS.Nodup := by decide
  exact ⟨callsFor_count hn hd, callsFor_count hn hd,
    callsFor_count hn hd, callsFor_count hn hd⟩

theorem C8_at_most_one_batch_witness :
    (((Main.quotaCheck storeEmptyRow7).calls.filter
          fun c => c.1 == "TROOPER_COMPANY").length
        = if (Main.sheetRun storeEmptyRow7 "TROOPER_COMPANY").updates.isEmpty
          then 0 else 1) ∧
    (((handleAdd storeEmptyRow7 "Xan" 2).calls.filter
          fun c => c.1 == "TROOPER_COMPANY").length
        = if (addPerSheet storeEmptyRow7 "Xan" 2 "TROOPER_COMPANY").1.isEmpty
          then 0 else 1) ∧
    (((handleOfficerAdd storeEmptyRow7 "Xan" 2).calls.filter
          fun c => c.1 == "TROOPER_COMPANY").length
        = if (officerPerSheet storeEmptyRow7 "Xan" 2 "TROOPER_COMPANY").1.isEmpty
          then 0 else 1) ∧
    (((handleTryoutAdd storeEmptyRow7 "Xan" 2).calls.filter
          fun c => c.1 == "TROOPER_COMPANY").length
        = if (tryoutPerSheet storeEmptyRow7 "Xan" 2 "TROOPER_COMPANY").1.isEmpty
          then 0 else 1) :=
  C8_at_most_one_batch storeEmptyRow7 "Xan" 2 "TROOPER_COMPANY" (by decide)

/-- C10: when `handleAdd`'s target list holds the same identifier twice
and it matches a row of a sheet, both occurrences are computed from the
single `A1:D100` grid read taken before any write for that sheet, so the
two staged C/D write pairs carry identical values equal to the original
value plus the amount, and the batch's net effect on each of the two
cells (last staged write wins) is a single `+amount`. -/
theorem C10_duplicate_target (store : Store) (input : String) (n w : String)
    (a : Int) (i : Nat) (hw : parseWords input = [w, w])
    (hfind : (readRange (store n) 1 100).findIdx?
        (fun row => cellEqStr (getCell row 1) w) = some i) :
    addPerSheet store input a n
        = ([⟨n, 'C', i + 1,
              .int (coerceInt (getCell ((readRange (store n) 1 100).getD i []) 2) + a)⟩,
            ⟨n, 'D', i + 1,
              .int (coerceInt (getCell ((readRange (store n) 1 100).getD i []) 3) + a)⟩,
            ⟨n, 'C', i + 1,
              .int (coerceInt (getCell ((readRange (store n) 1 100).getD i []) 2) + a)⟩,
            ⟨n, 'D', i + 1,
              .int (coerceInt (getCell ((readRange (store n) 1 100).getD i []) 3) + a)⟩],
           [⟨n, i + 1, w, coerceInt (getCell ((readRange (store n) 1 100).getD i []) 2) + a,
              coerceInt (getCell ((readRange (store n) 1 100).getD i []) 3) + a⟩,
            ⟨n, i + 1, w, coerceInt (getCell ((readRange (store n) 1 100).getD i []) 2) + a,
              coerceInt (getCell ((readRange (store n) 1 100).getD i []) 3) + a⟩]) ∧
    lastWrite (addPerSheet store input a n).1 n 'C' (i + 1)
        = some (.int (coerceInt (getCell ((readRange (store n) 1 100).getD i []) 2) + a)) ∧
    lastWrite (addPerSheet store input a n).1 n 'D' (i + 1)
        = some (.int (coerceInt (getCell ((readRange (store n) 1 100).getD i []) 3) + a)) := by
  have hmain : addPerSheet store input a n
      = ([⟨n, 'C', i + 1,
            .int (coerceInt (getCell ((readRange (store n) 1 100).getD i []) 2) + a)⟩,
          ⟨n, 'D', i + 1,
            .int (coerceInt (getCell ((readRange (store n) 1 100).getD i []) 3) + a)⟩,
          ⟨n, 'C', i + 1,
            .int (coerceInt (getCell ((readRange (store n) 1 100).getD i []) 2) + a)⟩,
          ⟨n, 'D', i + 1,
            .int (coerceInt (getCell ((readRange (store n) 1 100).getD i []) 3) + a)⟩],
         [⟨n, i + 1, w, coerceInt (getCell ((readRange (store n) 1 100).getD i []) 2) + a,
            coerceInt (getCell ((readRange (store n) 1 100).getD i []) 3) + a⟩,
          ⟨n, i + 1, w, coerceInt (getCell ((readRange (store n) 1 100).getD i []) 2) + a,
            coerceInt (getCell ((readRange (store n) 1 100).getD i []) 3) + a⟩]) := by
    rw [addPerSheet, hw, addWords, hfind]
    rw [addWords, hfind, addWords]
    rfl
  refine ⟨hmain, ?_, ?_⟩ <;>
    · rw [hmain]
      simp [lastWrite, List.filter]

theorem C10_duplicate_target_witness :
    addPerSheet storeAliceAdd "Alice, Alice" 5 "TROOPER_COMPANY"
        = ([⟨"TROOPER_COMPANY", 'C', 3, .int 15⟩,
            ⟨"TROOPER_COMPANY", 'D', 3, .int 7⟩,
            ⟨"TROOPER_COMPANY", 'C', 3, .int 15⟩,
            ⟨"TROOPER_COMPANY", 'D', 3, .int 7⟩],
           [⟨"TROOPER_COMPANY", 3, "Alice", 15, 7⟩,
            ⟨"TROOPER_COMPANY", 3, "Alice", 15, 7⟩]) ∧
    lastWrite (addPerSheet storeAliceAdd "Alice, Alice" 5 "TROOPER_COMPANY").1
        "TROOPER_COMPANY" 'C' 3 = some (.int 15) ∧
    lastWrite (addPerSheet storeAliceAdd "Alice, Alice" 5 "TROOPER_COMPANY").1
        "TROOPER_COMPANY" 'D' 3 = some (.int 7) :=
  C10_duplicate_target storeAliceAdd "Alice, Alice" "TROOPER_COMPANY" "Alice" 5 2
    (by decide) (by decide)

theorem bIdentP_of_notBoolTrue {row : List Cell}
    (h : getCell row 1 ≠ Cell.boolean true) :
    bIdentP row = some (bIdent row) := by
  unfold bIdent bIdentP
  cases hc : getCell row 1 with
  | empty => rfl
  | boolean b => cases b with
      | false => rfl
      | true => exact absurd hc h
  | str s => rfl

theorem Alt.processTopRow_eq {s : String} {i : Nat} {row : List Cell}
    (h : RowOk row) :
    Alt.processTopRow s i row = some (Main.processTopRow s i row) := by
  unfold Alt.processTopRow Main.processTopRow
  rw [bIdentP_of_notBoolTrue h.1]
  dsimp only
  by_cases hb : bIdent row = ""
  · rw [if_pos hb, if_pos hb]
  · rw [if_neg hb, if_neg hb, h.2]
    rfl

theorem Alt.topPass_eq {s : String} :
    ∀ {i : Nat} {g : List (List Cell)}, (∀ row ∈ g, RowOk row) →
      Alt.topPass s i g = some (Main.topPass s i g) := by
  intro i g
  induction g generalizing i with
  | nil => intro _; rfl
  | cons row rest ih =>
      intro h
      rw [Alt.topPass, Main.topPass,
        Alt.processTopRow_eq (h row (by simp)),
        ih fun x hx => h x (by simp [hx])]

theorem Alt.processBottomRow_eq {s : String} {i : Nat} {row : List Cell}
    (h : RowOk row) :
    Alt.processBottomRow s i row = some (Main.processBottomRow s i row) := by
  unfold Alt.processBottomRow Main.processBottomRow
  rw [bIdentP_of_notBoolTrue h.1]
  dsimp only
  by_cases hb : bIdent row = ""
  · rw [if_pos hb, if_pos hb]
  · rw [if_neg hb, if_neg hb, h.2]
    rfl

theorem Alt.bottomPass_eq {s : String} :
    ∀ {i : Nat} {g : List (List Cell)}, (∀ row ∈ g, RowOk row) →
      Alt.bottomPass s i g = some (Main.bottomPass s i g) := by
  intro i g
  induction g generalizing i with
  | nil => intro _; rfl
  | cons row rest ih =>
      intro h
      rw [Alt.bottomPass, Main.bottomPass,
        Alt.processBottomRow_eq (h row (by simp)),
        ih fun x hx => h x (by simp [hx])]

theorem notBoolTrue_getD {g : List (List Cell)}
    (h : ∀ row ∈ g, getCell row 1 ≠ Cell.boolean true) (k : Nat) :
    getCell (g.getD k []) 1 ≠ Cell.boolean true := by
  by_cases hk : k < g.length
  · exact h _ (by rw [List.getD_eq_getElem _ _ hk]; exact List.getElem_mem hk)
  · rw [List.getD_eq_default _ _ (by omega)]
    intro hc
    exact absurd hc (by simp [getCell])

theorem Alt.tryReset_eq {s : String} {g : List (List Cell)} {r : Nat}
    (h : ∀ row ∈ g, getCell row 1 ≠ Cell.boolean true) :
    Alt.tryReset s g r = some ((Main.tryReset s g r).map retargetU) := by
  unfold Alt.tryReset Main.tryReset
  rw [bIdentP_of_notBoolTrue (notBoolTrue_getD h (r - 7))]
  dsimp only
  by_cases hb : bIdent (g.getD (r - 7) []) = ""
  · rw [if_pos hb, if_pos hb]
    rfl
  · rw [if_neg hb, if_neg hb]
    rfl

theorem Alt.resetLoop_eq {s : String} {g : List (List Cell)}
    (h : ∀ row ∈ g, getCell row 1 ≠ Cell.boolean true) :
    Alt.resetLoop s g = some ((Main.resetLoop s g).map retargetU) := by
  unfold Alt.resetLoop Main.resetLoop
  rw [Alt.tryReset_eq h, Alt.tryReset_eq h, Alt.tryReset_eq h, Alt.tryReset_eq h]
  dsimp only
  rw [List.map_append, List.map_append, List.map_append]

theorem map_retargetU_eq_self {l : List Update} (h : ∀ u ∈ l, u.col ≠ 'B') :
    l.map retargetU = l := by
  induction l with
  | nil => rfl
  | cons u rest ih =>
      rw [List.map_cons, ih fun x hx => h x (by simp [hx])]
      have : retargetU u = u := by
        unfold retargetU
        rw [if_neg (h u (by simp))]
      rw [this]

theorem Main.topPass_no_B {s : String} {i : Nat} {g : List (List Cell)} :
    ∀ u ∈ (Main.topPass s i g).1, u.col ≠ 'B' := by
  intro u hu
  obtain ⟨_, _, _, _, _, hc⟩ := Main.mem_topPass_updates hu
  rcases hc with h | h | h <;> simp [h]

theorem Main.bottomPass_no_B {s : String} {i : Nat} {g : List (List Cell)} :
    ∀ u ∈ (Main.bottomPass s i g).1, u.col ≠ 'B' := by
  intro u hu
  obtain ⟨_, _, _, _, _, hc⟩ := Main.mem_bottomPass_updates hu
  rcases hc with h | h <;> simp [h]

theorem Alt.sheetRun_eq {store : Store} {n : String}
    (h7 : ∀ row ∈ readRange (store n) 7 13, RowOk row)
    (h19 : ∀ row ∈ readRange (store n) 19 40, RowOk row) :
    Alt.sheetRun store n
      = some ⟨(Main.sheetRun store n).updates.map retargetU,
              (Main.sheetRun store n).topIncs,
              (Main.sheetRun store n).botIncs⟩ := by
  unfold Alt.sheetRun Main.sheetRun
  dsimp only
  rw [Alt.topPass_eq h7, Alt.resetLoop_eq fun row hr => (h7 row hr).1,
    Alt.bottomPass_eq h19]
  dsimp only
  rw [List.map_append, List.map_append,
    map_retargetU_eq_self Main.topPass_no_B,
    map_retargetU_eq_self Main.bottomPass_no_B]

theorem Alt.sheetsRun_eq {store : Store} {F : String → SheetOut} :
    ∀ {l : List String}, (∀ n ∈ l, Alt.sheetRun store n = some (F n)) →
      Alt.sheetsRun store l = some (l.map fun n => (n, F n)) := by
  intro l
  induction l with
  | nil => intro _; rfl
  | cons n rest ih =>
      intro h
      rw [Alt.sheetsRun, h n (by simp), ih fun x hx => h x (by simp [hx])]
      rfl

theorem retargetU_isEmpty (l : List Update) :
    (l.map retargetU).isEmpty = l.isEmpty := by
  cases l <;> rfl

/-- C6 (amended): on every store where no scanned identifier cell holds
boolean `true` and every scanned F counter cell coerces identically under
the two files' coercions, the quota-check engine of `src/unnamed/part_000`
produces exactly the result of `src/index.js` with the rows-7-to-10
column-B resets retargeted to column G — same staged writes (up to that
one reset column), same batch calls, identical summary entries and
updated-sheet list. -/
theorem C6_equiv_mod_reset_target (store : Store) (h : StoreOk store) :
    Alt.quotaCheck store = some (retargetResult (Main.quotaCheck store)) := by
  have hsr : ∀ n ∈ SHEETS, Alt.sheetRun store n
      = some ⟨(Main.sheetRun store n).updates.map retargetU,
              (Main.sheetRun store n).topIncs,
              (Main.sheetRun store n).botIncs⟩ :=
    fun n hn => Alt.sheetRun_eq (h n hn).1 (h n hn).2
  unfold Alt.quotaCheck
  rw [Alt.sheetsRun_eq hsr]
  dsimp only
  congr 1
  unfold retargetResult Main.quotaCheck
  simp only [QCResult.mk.injEq]
  refine ⟨?_, ?_, ?_, ?_, ?_⟩
  · simp only [List.map_map, List.map_flatten]
    rfl
  · simp only [List.map_filterMap, List.filterMap_map]
    refine List.filterMap_congr ?_
    intro m _
    dsimp only [Function.comp]
    by_cases he : (Main.sheetRun store m).updates.isEmpty
    · rw [if_pos (by rw [retargetU_isEmpty]; exact he), if_pos he]
      rfl
    · rw [if_neg (by rw [retargetU_isEmpty]; exact he), if_neg he]
      rfl
  · simp only [List.map_map]
    rfl
  · simp only [List.map_map]
    rfl
  · simp only [List.filterMap_map]
    refine List.filterMap_congr ?_
    intro m _
    dsimp only [Function.comp]
    by_cases he : (Main.sheetRun store m).updates.isEmpty
    · rw [if_pos (by rw [retargetU_isEmpty]; exact he), if_pos he]
    · rw [if_neg (by rw [retargetU_isEmpty]; exact he), if_neg he]

theorem C6_equiv_mod_reset_target_witness :
    Alt.quotaCheck storeAgree = some (retargetResult (Main.quotaCheck storeAgree)) :=
  C6_equiv_mod_reset_target storeAgree (by decide)
